import Mathlib

/-!
# artifactory-cli-go: the download engine, flag validation and request headers

A shallow embedding of `commands/download.go`, `utils/ioUtils.go` and the flag
handling of `art/main.go`.

* Go `int` and `int64` values are integers (`Int`); arithmetic that can leave the
  64-bit range is wrapped explicitly with `wrapInt64` (a 64-bit platform is assumed
  for `int`).
* Everything outside the three source files (the network, the file system, the
  `cli` library, helpers of `utils` that live in other files) is an oracle in `Env`.
* A run is a trace of events together with either a result or the fatal error that
  ended the process (`Run`).
* Go strings are `String`; `[]byte` values are `String` too; a nil map or slice is
  `none`.
-/

namespace ArtifactoryCli

/-! ## Machine integers -/

/-- Two's-complement wrap-around of a mathematical integer into the int64 range. -/
def wrapInt64 (x : Int) : Int := (x + 2 ^ 63) % 2 ^ 64 - 2 ^ 63

/-- The value fits a Go `int64` (and a Go `int` on a 64-bit platform). -/
def isInt64 (x : Int) : Prop := -(2 ^ 63) ≤ x ∧ x < 2 ^ 63

instance (x : Int) : Decidable (isInt64 x) := by
  unfold isInt64; exact inferInstance

/-! ## Data model -/

/-- Modelled from the spec: the constants `utils.ExitCodeError` and
`utils.ExitCodeWarning` are not under src; the spec speaks of a distinct warning
code and a distinct error code. -/
inductive ExitCode
  | ExitCodeError
  | ExitCodeWarning
  deriving DecidableEq, Repr

/-- How a process can end abnormally. -/
inductive Fatal
  /-- `utils.Exit(code, msg)`. -/
  | exit (code : ExitCode) (msg : String)
  /-- `utils.CheckError(err)` with a non-nil error. -/
  | checkError
  /-- A Go run-time panic (index out of range). -/
  | goPanic (index : Int)
  deriving DecidableEq, Repr

/-- The type `utils.ArtifactoryDetails` (fields as used in the sources). -/
structure ArtifactoryDetails where
  Url : String
  User : String
  Password : String
  SshKeyPath : String
  SshAuthHeaders : Option (List (String × String))
  deriving DecidableEq, Repr

/-- The type `utils.FileDetails` (fields as used in the sources). -/
structure FileDetails where
  Md5 : String
  Sha1 : String
  Size : Int
  AcceptRanges : Bool
  deriving DecidableEq, Repr

/-- The type `utils.Flags` (fields as used in the sources). -/
structure Flags where
  ArtDetails : ArtifactoryDetails
  DryRun : Bool
  Props : String
  Deb : String
  Recursive : Bool
  Flat : Bool
  UseRegExp : Bool
  Threads : Int
  MinSplitSize : Int
  SplitCount : Int
  Interactive : Bool
  EncPassword : Bool
  deriving DecidableEq, Repr

/-- The fields of `http.Response` that the sources read. -/
structure Response where
  Status : String
  StatusCode : Int
  deriving DecidableEq, Repr

/-- An `http.Header`: canonical name to values. -/
abbrev Header := List (String × List String)

/-- The fields of `http.Request` that the sources touch. -/
structure Request where
  Method : String
  Url : String
  Body : Option String
  Close : Bool
  Header : Header
  deriving DecidableEq, Repr

/-- The type `commands.AqlSearchResultItem`. -/
structure AqlSearchResultItem where
  Repo : String
  Path : String
  Name : String
  deriving DecidableEq, Repr

/-- What `os.Stat` can answer. -/
inductive StatResult
  | notExist
  | failed
  | found (isDir : Bool)
  deriving DecidableEq, Repr

/-- Observable events of a run: calls that reach the network or the file system,
and lines printed. -/
inductive Event
  | Println (line : String)
  | SshAuthentication (details : ArtifactoryDetails)
  | ClientDo (req : Request)
  | GetFileDetailsFromArtifactory (downloadPath : String) (details : ArtifactoryDetails)
  | DownloadFile (downloadPath localPath fileName : String) (flat : Bool)
      (details : ArtifactoryDetails)
  | DownloadFileConcurrently (downloadPath localPath fileName logMsgPfx : String)
      (size : Int) (flags : Flags)
  | MkdirAll (path : String)
  | Create (path : String)
  | Write (path : String) (body : String)
  deriving DecidableEq, Repr

/-- The world outside the three source files. -/
structure Env where
  /-- `os.Stat`. -/
  Stat : String → StatResult
  /-- `os.Create` succeeds. -/
  CreateOk : String → Bool
  /-- `utils.GetFileDetails`: digests and size of a local file. -/
  GetFileDetails : String → Except Fatal FileDetails
  /-- Answer of the metadata probe `utils.GetFileDetailsFromArtifactory`. -/
  RemoteFileDetails : String → ArtifactoryDetails → Except Fatal FileDetails
  /-- `http.NewRequest`: the fresh request, or `none` on error. -/
  NewRequest : String → String → Option String → Option Request
  /-- `client.Do` followed by reading the body, or `none` on error. -/
  Do : Request → Option (Response × String)
  /-- `textproto.CanonicalMIMEHeaderKey`, applied by `http.Header.Set`. -/
  CanonicalMIMEHeaderKey : String → String
  /-- The header value computed by `req.SetBasicAuth`. -/
  BasicAuth : String → String → String
  /-- `utils.GetVersion`. -/
  GetVersion : String
  /-- `utils.GetLogMsgPrefix`. -/
  GetLogMsgPrefix : Int → Bool → String
  /-- `utils.BuildAqlSearchQuery`. -/
  BuildAqlSearchQuery : String → Bool → String → String
  /-- `json.Unmarshal` into `AqlSearchResult`, or `none` on error. -/
  Unmarshal : String → Option (List AqlSearchResultItem)
  /-- `utils.SshAuthentication`: the details it leaves behind. -/
  SshAuthenticated : ArtifactoryDetails → Except Fatal ArtifactoryDetails
  /-- Outcome of the split transfer `utils.DownloadFileConcurrently`. -/
  ConcurrentOk : String → String → String → Int → Flags → Except Fatal Unit
  /-- `commands.GetConfig`. -/
  GetConfig : ArtifactoryDetails
  /-- `utils.AddTrailingSlashIfNeeded`. -/
  AddTrailingSlashIfNeeded : String → String
  /-- `commands.Upload`: the pair (uploaded, failed). -/
  Upload : String → String → Flags → Except Fatal (Int × Int)

/-! ## Runs -/

/-- A run: the events so far and how it ended. -/
structure Run (α : Type) where
  trace : List Event
  result : Except Fatal α

namespace Run

/-- A run that does nothing and returns `a`. -/
def ret {α : Type} (a : α) : Run α := ⟨[], .ok a⟩

/-- Sequencing: the second run happens only if the first one returned. -/
def andThen {α β : Type} (x : Run α) (f : α → Run β) : Run β :=
  match x.result with
  | .error e => ⟨x.trace, .error e⟩
  | .ok a => ⟨x.trace ++ (f a).trace, (f a).result⟩

instance : Monad Run where
  pure := ret
  bind := andThen

/-- One event. -/
def emit (e : Event) : Run Unit := ⟨[e], .ok ()⟩

/-- A step without events. -/
def lift {α : Type} (r : Except Fatal α) : Run α := ⟨[], r⟩

end Run

/-- Modelled from the spec: `utils.Exit` is not under src; a fatal error ends the
run with the given exit code. -/
def utils.Exit {α : Type} (code : ExitCode) (msg : String) : Except Fatal α :=
  .error (.exit code msg)

/-- Modelled from the spec: `utils.CheckError` is not under src; a non-nil error
is fatal for the run. Here `none` stands for a non-nil error. -/
def utils.CheckError {α : Type} (r : Option α) : Except Fatal α :=
  match r with
  | some a => .ok a
  | none => .error .checkError

/-! ## utils/ioUtils.go -/

/-- The function `IsPathExists`: `!os.IsNotExist(err)` for the error of `os.Stat`. -/
def utils.IsPathExists (env : Env) (path : String) : Bool :=
  env.Stat path != StatResult.notExist

/-- The pair `(f, err)` of `os.Stat` as far as `IsDir` goes: `none` is a non-nil
error. -/
def StatResult.info : StatResult → Option Bool
  | .found isDir => some isDir
  | .notExist => none
  | .failed => none

/-- The function `IsFileExists`. -/
def utils.IsFileExists (env : Env) (path : String) : Except Fatal Bool :=
  if !utils.IsPathExists env path then
    .ok false
  else do
    let isDir ← utils.CheckError (env.Stat path).info
    pure (!isDir)

/-- The method `http.Header.Set`: the canonical name now maps to exactly `[value]`. -/
def Header.Set (env : Env) (h : Header) (key value : String) : Header :=
  (env.CanonicalMIMEHeaderKey key, [value]) ::
    h.filter (fun kv => kv.1 != env.CanonicalMIMEHeaderKey key)

/-- The values stored under a name (as `h[name]` on the Go map). -/
def Header.values (h : Header) (name : String) : Option (List String) :=
  h.lookup name

/-- The statement `req.Header.Set(name, value)`. -/
def Request.HeaderSet (env : Env) (req : Request) (name value : String) : Request :=
  { req with Header := Header.Set env req.Header name value }

/-- A `for name := range m { req.Header.Set(name, m[name]) }` loop, in the order in
which the map happens to be iterated. -/
def Request.setAll (env : Env) (req : Request) (m : List (String × String)) : Request :=
  m.foldl (fun r kv => r.HeaderSet env kv.1 kv.2) req

/-- The function `addAuthHeaders`. -/
def utils.addAuthHeaders (env : Env) (req : Request)
    (artifactoryDetails : ArtifactoryDetails) : Request :=
  match artifactoryDetails.SshAuthHeaders with
  | some sshAuthHeaders => req.setAll env sshAuthHeaders
  | none =>
    if artifactoryDetails.User ≠ "" ∧ artifactoryDetails.Password ≠ "" then
      req.HeaderSet env "Authorization"
        (env.BasicAuth artifactoryDetails.User artifactoryDetails.Password)
    else req

/-- The function `addUserAgentHeader`. -/
def utils.addUserAgentHeader (env : Env) (req : Request) : Request :=
  req.HeaderSet env "User-Agent" ("artifactory-cli-go/" ++ env.GetVersion)

/-- Lines 143-151 of `Send`: what happens to the fresh request before it is sent. -/
def utils.Send.prepare (env : Env) (req : Request) (headers : Option (List (String × String)))
    (artifactoryDetails : ArtifactoryDetails) : Request :=
  let req := { req with Close := true }
  let req := utils.addAuthHeaders env req artifactoryDetails
  let req := utils.addUserAgentHeader env req
  match headers with
  | some hs => req.setAll env hs
  | none => req

/-- The function `Send`. -/
def utils.Send (env : Env) (method url : String) (content : Option String)
    (headers : Option (List (String × String))) (artifactoryDetails : ArtifactoryDetails) :
    Run (Response × String) := do
  let req ← Run.lift (utils.CheckError (env.NewRequest method url content))
  let req := utils.Send.prepare env req headers artifactoryDetails
  Run.emit (.ClientDo req)
  Run.lift (utils.CheckError (env.Do req))

/-- The function `SendPost`. -/
def utils.SendPost (env : Env) (url : String) (content : String)
    (artifactoryDetails : ArtifactoryDetails) : Run (Response × String) :=
  utils.Send env "POST" url (some content) none artifactoryDetails

/-- The function `SendGet`. -/
def utils.SendGet (env : Env) (url : String) (headers : Option (List (String × String)))
    (artifactoryDetails : ArtifactoryDetails) : Run (Response × String) :=
  utils.Send env "GET" url none headers artifactoryDetails

/-- The name under which `DownloadFile` creates the local file (lines 101-104). -/
def utils.DownloadFile.target (localPath fileName : String) (flat : Bool) : String :=
  if !flat && localPath != "" then localPath ++ "/" ++ fileName else fileName

/-- The function `DownloadFile`. The first event records the call itself. -/
def utils.DownloadFile (env : Env) (downloadPath localPath fileName : String) (flat : Bool)
    (artifactoryDetails : ArtifactoryDetails) : Run Response := do
  Run.emit (.DownloadFile downloadPath localPath fileName flat artifactoryDetails)
  (if !flat && localPath != "" then Run.emit (.MkdirAll localPath) else pure ())
  let fileName := utils.DownloadFile.target localPath fileName flat
  Run.emit (.Create fileName)
  Run.lift (utils.CheckError (if env.CreateOk fileName then some () else none))
  let (resp, body) ← utils.SendGet env downloadPath none artifactoryDetails
  Run.emit (.Write fileName body)
  pure resp

/-- Modelled from the spec: `utils.GetFileDetailsFromArtifactory` is not under src;
the metadata probe is one network call that returns the remote size, digests and
whether byte-range requests are supported. -/
def utils.GetFileDetailsFromArtifactory (env : Env) (downloadPath : String)
    (artifactoryDetails : ArtifactoryDetails) : Run FileDetails :=
  ⟨[.GetFileDetailsFromArtifactory downloadPath artifactoryDetails],
    env.RemoteFileDetails downloadPath artifactoryDetails⟩

/-- Modelled from the spec: `utils.DownloadFileConcurrently` is not under src; the
split transfer is recorded as one call with its arguments. -/
def utils.DownloadFileConcurrently (env : Env)
    (downloadPath localPath fileName logMsgPfx : String) (size : Int) (flags : Flags) :
    Run Unit :=
  ⟨[.DownloadFileConcurrently downloadPath localPath fileName logMsgPfx size flags],
    env.ConcurrentOk downloadPath localPath fileName size flags⟩

/-- Modelled from the spec: `utils.SshAuthentication` is not under src; the external
SSH collaborator is one call that leaves the pre-built headers in the details. -/
def utils.SshAuthentication (env : Env) (artifactoryDetails : ArtifactoryDetails) :
    Run ArtifactoryDetails :=
  ⟨[.SshAuthentication artifactoryDetails], env.SshAuthenticated artifactoryDetails⟩

/-! ## commands/download.go -/

/-- The function `buildDownloadUrl`. -/
def commands.buildDownloadUrl (baseUrl : String) (resultItem : AqlSearchResultItem) : String :=
  if resultItem.Path = "." then
    baseUrl ++ resultItem.Repo ++ "/" ++ resultItem.Name
  else
    baseUrl ++ resultItem.Repo ++ "/" ++ resultItem.Path ++ "/" ++ resultItem.Name

/-- The function `shouldDownloadFile`. -/
def commands.shouldDownloadFile (env : Env) (localFilePath : String)
    (artifactoryFileDetails : FileDetails) (_user _password : String) : Except Fatal Bool := do
  let isFileExists ← utils.IsFileExists env localFilePath
  if !isFileExists then
    pure true
  else do
    let localFileDetails ← env.GetFileDetails localFilePath
    if localFileDetails.Md5 ≠ artifactoryFileDetails.Md5 ∨
        localFileDetails.Sha1 ≠ artifactoryFileDetails.Sha1 then
      pure true
    else
      pure false

/-- The condition of line 60, with the product computed in int64. -/
def commands.downloadFile.whole (flags : Flags) (details : FileDetails) : Prop :=
  flags.SplitCount = 0 ∨ flags.MinSplitSize < 0 ∨
    wrapInt64 (flags.MinSplitSize * 1000) > details.Size ∨ details.AcceptRanges = false

instance (flags : Flags) (details : FileDetails) :
    Decidable (commands.downloadFile.whole flags details) := by
  unfold commands.downloadFile.whole; exact inferInstance

/-- The function `downloadFile`. -/
def commands.downloadFile (env : Env)
    (downloadPath localPath localFileName logMsgPfx : String) (flags : Flags) : Run Unit := do
  let details ← utils.GetFileDetailsFromArtifactory env downloadPath flags.ArtDetails
  let localFilePath := localPath ++ "/" ++ localFileName
  let shouldDownload ← Run.lift (commands.shouldDownloadFile env localFilePath details
    flags.ArtDetails.User flags.ArtDetails.Password)
  if shouldDownload then
    if commands.downloadFile.whole flags details then do
      let resp ← utils.DownloadFile env downloadPath localPath localFileName flags.Flat
        flags.ArtDetails
      Run.emit (.Println (logMsgPfx ++ " Artifactory response:" ++ " " ++ resp.Status))
    else
      utils.DownloadFileConcurrently env downloadPath localPath localFileName logMsgPfx
        details.Size flags
  else
    Run.emit (.Println (logMsgPfx ++ " File already exists locally."))

/-- The slice access `resultItems[j]`: `none` is an index out of range. -/
def commands.itemAt (resultItems : List AqlSearchResultItem) (j : Int) :
    Option AqlSearchResultItem :=
  if 0 ≤ j then resultItems[j.toNat]? else none

/-- Lines 43-48: one round of the loop of a worker, at index `j`. -/
def commands.downloadFiles.body (env : Env) (resultItems : List AqlSearchResultItem)
    (flags : Flags) (threadId j : Int) : Run Unit :=
  match commands.itemAt resultItems j with
  | none => Run.lift (.error (.goPanic j))
  | some item => do
    let downloadPath := commands.buildDownloadUrl flags.ArtDetails.Url item
    let logMsgPfx := env.GetLogMsgPrefix threadId flags.DryRun
    Run.emit (.Println (logMsgPfx ++ " Downloading " ++ downloadPath))
    if !flags.DryRun then
      commands.downloadFile env downloadPath item.Path item.Name logMsgPfx flags
    else pure ()

/-- Line 42: `for j := threadId; j < size; j += flags.Threads`, entered at `j`, with
the addition done in the machine's integers. The fuel bounds the number of rounds. -/
def commands.downloadFiles.loop (env : Env) (resultItems : List AqlSearchResultItem)
    (flags : Flags) (threadId : Int) : Nat → Int → Run Unit
  | 0, _ => pure ()
  | fuel + 1, j =>
    if j < (resultItems.length : Int) then do
      commands.downloadFiles.body env resultItems flags threadId j
      commands.downloadFiles.loop env resultItems flags threadId fuel
        (wrapInt64 (j + flags.Threads))
    else
      pure ()

/-- The indices at which the loop of line 42 evaluates `resultItems[j]`, starting at
`j`: the loop header alone. An index out of range ends the goroutine, so it is the
last one. -/
def commands.downloadFiles.indices (size threads : Int) : Nat → Int → List Int
  | 0, _ => []
  | fuel + 1, j =>
    if j < size then
      if 0 ≤ j then
        j :: commands.downloadFiles.indices size threads fuel (wrapInt64 (j + threads))
      else [j]
    else []

/-- The goroutine started for `threadId` (lines 41-51). A worker over `n` items
makes at most `n` rounds and one more test, which is the fuel it gets. -/
def commands.downloadFiles.worker (env : Env) (resultItems : List AqlSearchResultItem)
    (flags : Flags) (threadId : Int) : Run Unit :=
  commands.downloadFiles.loop env resultItems flags threadId (resultItems.length + 1) threadId

/-- The indices visited by the goroutine started for `threadId`. -/
def commands.downloadFiles.workerIndices (size threads threadId : Int) : List Int :=
  commands.downloadFiles.indices size threads (size.toNat + 1) threadId

/-- The function `downloadFiles`: one run per goroutine, for thread ids
`0, ..., Threads - 1`. No order between the events of different goroutines is
modelled. -/
def commands.downloadFiles (env : Env) (resultItems : List AqlSearchResultItem)
    (flags : Flags) : List (Run Unit) :=
  (List.range flags.Threads.toNat).map
    (fun i => commands.downloadFiles.worker env resultItems flags (i : Int))

/-- The function `parseAqlSearchResponse`. -/
def commands.parseAqlSearchResponse (env : Env) (resp : String) :
    Except Fatal (List AqlSearchResultItem) :=
  utils.CheckError (env.Unmarshal resp)

/-- Lines 15-28 of `Download`: everything up to the call of `downloadFiles`. The run
returns the flags as left by the SSH step, the query, and the parsed result items
when line 28 was reached. -/
def commands.Download.search (env : Env) (downloadPattern : String) (flags : Flags) :
    Run (Flags × String × Option (List AqlSearchResultItem)) := do
  let artDetails ←
    if flags.ArtDetails.SshKeyPath ≠ "" then
      utils.SshAuthentication env flags.ArtDetails
    else
      pure flags.ArtDetails
  let flags := { flags with ArtDetails := artDetails }
  let aqlUrl := flags.ArtDetails.Url ++ "api/search/aql"
  let data := env.BuildAqlSearchQuery downloadPattern flags.Recursive flags.Props
  Run.emit (.Println ("Searching Artifactory using AQL query: " ++ data))
  if !flags.DryRun then do
    let (resp, json) ← utils.SendPost env aqlUrl data flags.ArtDetails
    Run.emit (.Println ("Artifactory response:" ++ " " ++ resp.Status))
    if resp.StatusCode = 200 then do
      let resultItems ← Run.lift (commands.parseAqlSearchResponse env json)
      pure (flags, data, some resultItems)
    else
      pure (flags, data, none)
  else
    pure (flags, data, none)

/-- The first fatal error among the goroutines, if any. -/
def firstFatal : List (Run Unit) → Option Fatal
  | [] => none
  | r :: rs =>
    match r.result with
    | .error e => some e
    | .ok _ => firstFatal rs

/-- A run of `Download`: the main goroutine, the result items handed to
`downloadFiles` (`none` when line 29 is not reached), and the workers started. -/
structure DownloadRun where
  main : Run String
  items : Option (List AqlSearchResultItem)
  workers : List (Run Unit)

/-- The function `Download`. A fatal error in a worker ends the process, so the main
goroutine prints its last line and returns only when every worker returned. -/
def commands.Download (env : Env) (downloadPattern : String) (flags : Flags) : DownloadRun :=
  let search := commands.Download.search env downloadPattern flags
  match search.result with
  | .error e => ⟨⟨search.trace, .error e⟩, none, []⟩
  | .ok (_, data, none) => ⟨⟨search.trace, .ok data⟩, none, []⟩
  | .ok (flags, data, some resultItems) =>
    let workers := commands.downloadFiles env resultItems flags
    match firstFatal workers with
    | some e => ⟨⟨search.trace, .error e⟩, some resultItems, workers⟩
    | none =>
      ⟨⟨search.trace ++ [.Println ("Downloaded " ++ toString resultItems.length ++
          " artifacts from Artifactory.")], .ok data⟩, some resultItems, workers⟩

/-! ## The Go library functions used by art/main.go -/

/-- The value of a non-empty run of decimal digits; `none` for anything else. -/
def strconv.digitsValue (cs : List Char) : Option Nat :=
  if cs ≠ [] ∧ cs.all Char.isDigit = true then
    some (cs.foldl (fun n c => 10 * n + (c.toNat - 48)) 0)
  else none

/-- The call `strconv.ParseInt(s, 10, 64)`: an optional sign, decimal digits, and a
value in the int64 range; `none` is a non-nil error. -/
def strconv.ParseInt64 (s : String) : Option Int :=
  let signed : Bool × List Char :=
    match s.data with
    | '+' :: rest => (false, rest)
    | '-' :: rest => (true, rest)
    | cs => (false, cs)
  match strconv.digitsValue signed.2 with
  | none => none
  | some v =>
    let x : Int := if signed.1 then -(v : Int) else (v : Int)
    if isInt64 x then some x else none

/-- The function `strconv.Atoi` on a 64-bit platform. -/
def strconv.Atoi (s : String) : Option Int := strconv.ParseInt64 s

/-- The value returned by `strconv.ParseBool` (false when it reports an error). -/
def strconv.ParseBool (str : String) : Bool :=
  str = "1" ∨ str = "t" ∨ str = "T" ∨ str = "true" ∨ str = "TRUE" ∨ str = "True"

/-- The length of `strings.Split(s, "/")`. -/
def strings.SplitSlashLen (s : String) : Nat := s.data.count '/' + 1

/-- The `cli.Context` of a command: flag lookups and positional arguments. -/
structure Context where
  /-- `c.String(name)`. -/
  StringOf : String → String
  /-- `c.Bool(name)`. -/
  BoolOf : String → Bool
  /-- `c.Args()`. -/
  Args : List String

/-! ## art/main.go -/

/-- The function `getArtifactoryDetails`. -/
def main.getArtifactoryDetails (env : Env) (c : Context) (includeConfig : Bool) :
    ArtifactoryDetails :=
  let details : ArtifactoryDetails :=
    { Url := c.StringOf "url", User := c.StringOf "user", Password := c.StringOf "password",
      SshKeyPath := c.StringOf "ssh-key-path", SshAuthHeaders := none }
  let details : ArtifactoryDetails :=
    if includeConfig = true ∧ (details.Url = "" ∨
        ((details.User = "" ∨ details.Password = "") ∧ details.SshKeyPath = "")) then
      let confDetails := env.GetConfig
      { details with
        Url := if details.Url = "" then confDetails.Url else details.Url
        User := if details.User = "" then confDetails.User else details.User
        Password := if details.Password = "" then confDetails.Password else details.Password
        SshKeyPath :=
          if details.SshKeyPath = "" then confDetails.SshKeyPath else details.SshKeyPath }
    else details
  { details with Url := env.AddTrailingSlashIfNeeded details.Url }

/-- Lines 222-229 of `initFlags`: the thread count. -/
def main.initFlags.threads (c : Context) : Except Fatal Int :=
  if c.StringOf "threads" = "" then
    pure 3
  else
    match strconv.Atoi (c.StringOf "threads") with
    | none =>
      utils.Exit .ExitCodeError "The '--threads' option should have a numeric positive value."
    | some threads =>
      if threads < 1 then
        utils.Exit .ExitCodeError "The '--threads' option should have a numeric positive value."
      else pure threads

/-- Lines 230-237 of `initFlags`: the minimum split size. -/
def main.initFlags.minSplitSize (c : Context) : Except Fatal Int :=
  if c.StringOf "min-split" = "" then
    pure 5120
  else
    match strconv.ParseInt64 (c.StringOf "min-split") with
    | none =>
      utils.Exit .ExitCodeError
        "The '--min-split' option should have a numeric value. Try 'art download --help'."
    | some minSplitSize => pure minSplitSize

/-- Lines 238-251 of `initFlags`: the split count. -/
def main.initFlags.splitCount (c : Context) : Except Fatal Int :=
  if c.StringOf "split-count" = "" then
    pure 3
  else
    match strconv.Atoi (c.StringOf "split-count") with
    | none =>
      utils.Exit .ExitCodeError
        "The '--split-count' option should have a numeric value. Try 'art download --help'."
    | some splitCount =>
      if splitCount > 15 then
        utils.Exit .ExitCodeError
          "The '--split-count' option value is limitted to a maximum of 15."
      else if splitCount < 0 then
        utils.Exit .ExitCodeError "The '--split-count' option cannot have a negative value."
      else pure splitCount

/-- Lines 187-197 of `initFlags`: the server details and the mandatory URL. -/
def main.initFlags.artDetails (env : Env) (c : Context) (cmd : String) (interactive : Bool) :
    Except Fatal ArtifactoryDetails :=
  if cmd = "config" then
    let artDetails := main.getArtifactoryDetails env c false
    if interactive = false ∧ artDetails.Url = "" then
      utils.Exit .ExitCodeError
        "The --url option is mandatory when the --interactive option is set to false"
    else pure artDetails
  else
    let artDetails := main.getArtifactoryDetails env c true
    if artDetails.Url = "" then
      utils.Exit .ExitCodeError "The --url option is mandatory"
    else pure artDetails

/-- The function `initFlags`: the flags it leaves in the global `flags`, or the
fatal exit it takes. -/
def main.initFlags (env : Env) (c : Context) (cmd : String) : Except Fatal Flags := do
  let recursive := if c.StringOf "recursive" = "" then true else c.BoolOf "recursive"
  let interactive := if c.StringOf "interactive" = "" then true else c.BoolOf "interactive"
  let encPassword := if c.StringOf "enc-password" = "" then true else c.BoolOf "enc-password"
  let artDetails ← main.initFlags.artDetails env c cmd interactive
  let strFlat := c.StringOf "flat"
  let flat :=
    if cmd = "upload" then
      if strFlat = "" then true else strconv.ParseBool strFlat
    else
      if strFlat = "" then false else strconv.ParseBool strFlat
  let deb := c.StringOf "deb"
  (if deb ≠ "" ∧ strings.SplitSlashLen deb ≠ 3 then
    utils.Exit .ExitCodeError
      "The --deb option should be in the form of distribution/component/architecture"
  else pure ())
  let props := c.StringOf "props"
  let dryRun := c.BoolOf "dry-run"
  let useRegExp := c.BoolOf "regexp"
  let threads ← main.initFlags.threads c
  let minSplitSize ← main.initFlags.minSplitSize c
  let splitCount ← main.initFlags.splitCount c
  pure { ArtDetails := artDetails, DryRun := dryRun, Props := props, Deb := deb,
         Recursive := recursive, Flat := flat, UseRegExp := useRegExp, Threads := threads,
         MinSplitSize := minSplitSize, SplitCount := splitCount, Interactive := interactive,
         EncPassword := encPassword }

/-- Lines 289-294 of `upload`: the exit taken for the counts returned by
`commands.Upload`. -/
def main.upload.verdict (uploaded failed : Int) : Except Fatal Unit :=
  if failed > 0 then do
    (if uploaded > 0 then utils.Exit .ExitCodeWarning "" else pure ())
    utils.Exit .ExitCodeError ""
  else pure ()

/-- The function `upload`. -/
def main.upload (env : Env) (c : Context) : Except Fatal Unit := do
  let flags ← main.initFlags env c "upload"
  match c.Args with
  | [localPath, targetPath] =>
    let (uploaded, failed) ← env.Upload localPath targetPath flags
    main.upload.verdict uploaded failed
  | _ => utils.Exit .ExitCodeError "Wrong number of arguments. Try 'art upload --help'."

/-- The function `download`. -/
def main.download (env : Env) (c : Context) : Except Fatal DownloadRun := do
  let flags ← main.initFlags env c "download"
  match c.Args with
  | [pattern] => pure (commands.Download env pattern flags)
  | _ => utils.Exit .ExitCodeError "Wrong number of arguments. Try 'art download --help'."

/-! ## Concrete inputs -/

/-- Whether a byte may occur in a header name (an RFC 7230 token character). -/
def textproto.validHeaderFieldByte (c : Char) : Bool :=
  c.isAlphanum || [33, 35, 36, 37, 38, 39, 42, 43, 45, 46, 94, 95, 96, 124, 126].contains c.toNat

/-- The capitalisation pass of Go's `textproto.CanonicalMIMEHeaderKey`: upper case at
the start and after each dash, lower case elsewhere. -/
def textproto.canonicalise : Bool → List Char → List Char
  | _, [] => []
  | upper, c :: cs =>
    let c := if upper then c.toUpper else c.toLower
    c :: textproto.canonicalise (c = '-') cs

/-- Go's `textproto.CanonicalMIMEHeaderKey`: a name made of token characters is put in
canonical capitalisation, any other name is left as it is. -/
def textproto.CanonicalMIMEHeaderKey (s : String) : String :=
  if s.data.all textproto.validHeaderFieldByte then
    String.mk (textproto.canonicalise true s.data)
  else s

/-- A server that knows one artifact of 100 bytes and accepts range requests, and a
local file system on which nothing exists yet. -/
def sampleEnv : Env where
  Stat := fun _ => .notExist
  CreateOk := fun _ => true
  GetFileDetails := fun _ => .error .checkError
  RemoteFileDetails := fun _ _ =>
    .ok { Md5 := "9e107d9d372bb6826bd81d3542a419d6",
          Sha1 := "2fd4e1c67a2d28fced849ee1bb76e7391b93eb12", Size := 100, AcceptRanges := true }
  NewRequest := fun method url content =>
    some { Method := method, Url := url, Body := content, Close := false, Header := [] }
  Do := fun _ => some ({ Status := "200 OK", StatusCode := 200 }, "body")
  CanonicalMIMEHeaderKey := textproto.CanonicalMIMEHeaderKey
  BasicAuth := fun user password => "Basic " ++ user ++ ":" ++ password
  GetVersion := "1.0.0"
  GetLogMsgPrefix := fun threadId dryRun =>
    (if dryRun then "[Dry run] " else "") ++ "[Thread " ++ toString threadId ++ "]"
  BuildAqlSearchQuery := fun pattern _ _ => "items.find(" ++ pattern ++ ")"
  Unmarshal := fun _ =>
    some [{ Repo := "libs", Path := ".", Name := "a.zip" },
          { Repo := "libs", Path := "org/acme", Name := "b.zip" }]
  SshAuthenticated := fun details =>
    .ok { details with SshAuthHeaders := some [("Authorization", "Bearer ssh")] }
  ConcurrentOk := fun _ _ _ _ _ => .ok ()
  GetConfig := { Url := "", User := "", Password := "", SshKeyPath := "", SshAuthHeaders := none }
  AddTrailingSlashIfNeeded := fun url => if url = "" ∨ url.data.getLast? = some '/' then url
    else url ++ "/"
  Upload := fun _ _ _ => .ok (2, 1)

/-- Server details without credentials. -/
def sampleDetails : ArtifactoryDetails where
  Url := "http://localhost:8081/artifactory/"
  User := ""
  Password := ""
  SshKeyPath := ""
  SshAuthHeaders := none

/-- The default download flags of `initFlags`. -/
def sampleFlags : Flags where
  ArtDetails := sampleDetails
  DryRun := false
  Props := ""
  Deb := ""
  Recursive := true
  Flat := false
  UseRegExp := false
  Threads := 3
  MinSplitSize := 5120
  SplitCount := 3
  Interactive := true
  EncPassword := true

/-- The event is a call of `utils.DownloadFile`. -/
def Event.isDownloadFile : Event → Bool
  | .DownloadFile _ _ _ _ _ => true
  | _ => false

/-- The event is a call of `utils.DownloadFileConcurrently`. -/
def Event.isDownloadFileConcurrently : Event → Bool
  | .DownloadFileConcurrently _ _ _ _ _ _ => true
  | _ => false

/-- The event is a printed line; every other event reaches the network or the file
system. -/
def Event.isPrintln : Event → Bool
  | .Println _ => true
  | _ => false

/-- Every event of the run satisfies `P`. -/
def Run.All {α : Type} (P : Event → Prop) (r : Run α) : Prop := ∀ e ∈ r.trace, P e

/-- The decision rule of the spec (RangePlanner, section 4.5), in its words: choose
Whole if any of these holds: splitCount == 0; minSplitSizeKB < 0;
size < minSplitSizeKB × 1000; the server does not accept range requests. The product
is the mathematical one. -/
def RangePlanner.chooseWhole (splitCount minSplitSizeKB size : Int) (acceptsRanges : Bool) :
    Prop :=
  splitCount = 0 ∨ minSplitSizeKB < 0 ∨ size < minSplitSizeKB * 1000 ∨ acceptsRanges = false

instance (splitCount minSplitSizeKB size : Int) (acceptsRanges : Bool) :
    Decidable (RangePlanner.chooseWhole splitCount minSplitSizeKB size acceptsRanges) := by
  unfold RangePlanner.chooseWhole; exact inferInstance

/-- The flags of `art download --min-split 9223372036854776`. -/
def overflowFlags : Flags := { sampleFlags with MinSplitSize := 9223372036854776 }

/-- The metadata that `sampleEnv` reports for every artifact. -/
def sampleRemote : FileDetails where
  Md5 := "9e107d9d372bb6826bd81d3542a419d6"
  Sha1 := "2fd4e1c67a2d28fced849ee1bb76e7391b93eb12"
  Size := 100
  AcceptRanges := true

/-- The environment `sampleEnv` after `org/acme/b.zip` was downloaded: the file is
there and has the digests the server reports. -/
def sampleEnvWithLocal : Env :=
  { sampleEnv with
    Stat := fun path => if path = "org/acme/b.zip" then .found false else .notExist
    GetFileDetails := fun path =>
      if path = "org/acme/b.zip" then .ok sampleRemote else .error .checkError }

/-- Running `f` at each index in turn; a fatal error ends the run. -/
def Run.forEach (f : Int → Run Unit) : List Int → Run Unit
  | [] => pure ()
  | j :: js => do
    f j
    Run.forEach f js

/-- The flags of `art download --threads 9223372036854775807`. -/
def maxThreadsFlags : Flags := { sampleFlags with Threads := 9223372036854775807 }

/-- Two result items. -/
def sampleItems : List AqlSearchResultItem :=
  [{ Repo := "libs", Path := ".", Name := "a.zip" },
   { Repo := "libs", Path := "org/acme", Name := "b.zip" }]

/-- Dry-run flags with an SSH key configured. -/
def dryRunSshFlags : Flags :=
  { sampleFlags with
    DryRun := true
    ArtDetails := { sampleDetails with SshKeyPath := "/home/user/.ssh/id_rsa" } }

/-- The environment `sampleEnv` with a server that answers every request with
`201 Created`. -/
def createdEnv : Env :=
  { sampleEnv with Do := fun _ => some ({ Status := "201 Created", StatusCode := 201 }, "body") }

/-- The SSH step of `Download` (lines 15-17) as far as the details go. -/
def commands.Download.sshStep (env : Env) (flags : Flags) : Except Fatal ArtifactoryDetails :=
  if flags.ArtDetails.SshKeyPath ≠ "" then env.SshAuthenticated flags.ArtDetails
  else .ok flags.ArtDetails

/-- The command line `art download --url http://localhost:8081/artifactory/
--threads 4 --split-count 15 libs/*`. -/
def sampleContext : Context where
  StringOf := fun name =>
    if name = "url" then "http://localhost:8081/artifactory/"
    else if name = "threads" then "4"
    else if name = "split-count" then "15"
    else ""
  BoolOf := fun _ => false
  Args := ["libs/*"]

/-- The command line `art upload --url http://localhost:8081/artifactory/ build/*.zip
libs/`. -/
def sampleUploadContext : Context where
  StringOf := fun name => if name = "url" then "http://localhost:8081/artifactory/" else ""
  BoolOf := fun _ => false
  Args := ["build/*.zip", "libs/"]

/-- Server details with the headers left by the SSH collaborator. -/
def sshDetails : ArtifactoryDetails :=
  { sampleDetails with SshAuthHeaders := some [("Authorization", "Bearer ssh")] }

/-- The flags of `art download --flat true`. -/
def flatFlags : Flags := { sampleFlags with Flat := true }

/-- The command line `art download --url http://localhost:8081/artifactory/
--flat true libs/*`. -/
def flatContext : Context where
  StringOf := fun name =>
    if name = "url" then "http://localhost:8081/artifactory/"
    else if name = "flat" then "true"
    else ""
  BoolOf := fun _ => false
  Args := ["libs/*"]

/-- The environment `sampleEnv` after a run with `--flat true`: `b.zip` is in the
working directory with the digests the server reports, and `org/acme/b.zip` is not
there. -/
def flatEnv : Env :=
  { sampleEnv with
    Stat := fun path => if path = "b.zip" then .found false else .notExist
    GetFileDetails := fun path =>
      if path = "b.zip" then .ok sampleRemote else .error .checkError }

/-- The local file that the event creates or writes, if it does either. -/
def Event.filePath : Event → Option String
  | .Create path => some path
  | .Write path _ => some path
  | _ => none

/-! ## Runs: unfolding lemmas -/

theorem Run.bind_eq {α β : Type} (x : Run α) (f : α → Run β) : x >>= f = Run.andThen x f := rfl

theorem Run.pure_eq {α : Type} (a : α) : (pure a : Run α) = Run.ret a := rfl

theorem Run.All.andThen {α β : Type} {P : Event → Prop} {x : Run α} {f : α → Run β}
    (hx : x.All P) (hf : ∀ a, (f a).All P) : (x.andThen f).All P := by
  intro e he
  unfold Run.andThen at he
  cases hr : x.result with
  | error err =>
    rw [hr] at he
    exact hx e he
  | ok a =>
    rw [hr] at he
    rcases List.mem_append.mp he with h | h
    · exact hx e h
    · exact hf a e h

theorem Run.All.bind {α β : Type} {P : Event → Prop} {x : Run α} {f : α → Run β}
    (hx : x.All P) (hf : ∀ a, (f a).All P) : (x >>= f).All P :=
  Run.All.andThen hx hf

theorem Run.All.pure {α : Type} {P : Event → Prop} (a : α) : (pure a : Run α).All P := by
  intro e he
  cases he

theorem Run.All.lift {α : Type} {P : Event → Prop} (r : Except Fatal α) :
    (Run.lift r).All P := by
  intro e he
  cases he

theorem Run.All.emit {P : Event → Prop} {e : Event} (h : P e) : (Run.emit e).All P := by
  intro e' he
  simp only [Run.emit, List.mem_singleton] at he
  exact he ▸ h

theorem wrapInt64_of_isInt64 {x : Int} (h : isInt64 x) : wrapInt64 x = x := by
  unfold isInt64 at h
  unfold wrapInt64
  omega

/-! ## downloadFile: whole or split (C1, C2) -/

/-- A request sent by `Send` is one `ClientDo` event: no event of another kind. -/
theorem utils.Send_all {P : Event → Prop} (hP : ∀ req, P (.ClientDo req)) (env : Env)
    (method url : String) (content : Option String) (headers : Option (List (String × String)))
    (details : ArtifactoryDetails) : (utils.Send env method url content headers details).All P := by
  unfold utils.Send
  refine Run.All.bind (Run.All.lift _) (fun req => ?_)
  exact Run.All.bind (Run.All.emit (hP _)) (fun _ => Run.All.lift _)

theorem utils.SendGet_all {P : Event → Prop} (hP : ∀ req, P (.ClientDo req)) (env : Env)
    (url : String) (headers : Option (List (String × String))) (details : ArtifactoryDetails) :
    (utils.SendGet env url headers details).All P :=
  utils.Send_all hP env "GET" url none headers details

theorem utils.SendPost_all {P : Event → Prop} (hP : ∀ req, P (.ClientDo req)) (env : Env)
    (url content : String) (details : ArtifactoryDetails) :
    (utils.SendPost env url content details).All P :=
  utils.Send_all hP env "POST" url (some content) none details

/-- Every run of `utils.DownloadFile` starts with the event of the call. -/
theorem utils.DownloadFile_head (env : Env) (downloadPath localPath fileName : String)
    (flat : Bool) (details : ArtifactoryDetails) :
    ∃ rest, (utils.DownloadFile env downloadPath localPath fileName flat details).trace =
      Event.DownloadFile downloadPath localPath fileName flat details :: rest := by
  simp only [utils.DownloadFile, Run.bind_eq, Run.andThen, Run.emit]
  exact ⟨_, rfl⟩

/-- No run of `utils.DownloadFile` holds a call of the split transfer. -/
theorem utils.DownloadFile_no_split (env : Env) (downloadPath localPath fileName : String)
    (flat : Bool) (details : ArtifactoryDetails) :
    (utils.DownloadFile env downloadPath localPath fileName flat details).All
      (fun e => e.isDownloadFileConcurrently = false) := by
  unfold utils.DownloadFile
  refine Run.All.bind (Run.All.emit rfl) (fun _ => ?_)
  refine Run.All.bind ?_ (fun _ => ?_)
  · split
    · exact Run.All.emit rfl
    · exact Run.All.pure _
  refine Run.All.bind (Run.All.emit rfl) (fun _ => ?_)
  refine Run.All.bind (Run.All.lift _) (fun _ => ?_)
  refine Run.All.bind (utils.SendGet_all (P := fun e => e.isDownloadFileConcurrently = false)
    (fun _ => rfl) _ _ _ _) (fun rb => ?_)
  exact Run.All.bind (Run.All.emit rfl) (fun _ => Run.All.pure _)


/-- Where the product `MinSplitSize*1000` stays below 2^63, the rule of the spec makes
the code take the branch of line 61. -/
theorem commands.downloadFile.whole_of_chooseWhole (flags : Flags) (details : FileDetails)
    (hno : flags.MinSplitSize * 1000 < 2 ^ 63)
    (h : RangePlanner.chooseWhole flags.SplitCount flags.MinSplitSize details.Size
      details.AcceptRanges) :
    commands.downloadFile.whole flags details := by
  unfold commands.downloadFile.whole wrapInt64
  rcases h with h | h | h | h
  · exact Or.inl h
  · exact Or.inr (Or.inl h)
  · by_cases hneg : flags.MinSplitSize < 0
    · exact Or.inr (Or.inl hneg)
    · refine Or.inr (Or.inr (Or.inl ?_))
      omega
  · exact Or.inr (Or.inr (Or.inr h))

/-- Whenever the code takes the branch of line 61 on an int64 size, the rule of the
spec holds, wrap-around or not. -/
theorem commands.downloadFile.chooseWhole_of_whole (flags : Flags) (details : FileDetails)
    (hsize : isInt64 details.Size) (h : commands.downloadFile.whole flags details) :
    RangePlanner.chooseWhole flags.SplitCount flags.MinSplitSize details.Size
      details.AcceptRanges := by
  unfold isInt64 at hsize
  unfold commands.downloadFile.whole wrapInt64 at h
  rcases h with h | h | h | h
  · exact Or.inl h
  · exact Or.inr (Or.inl h)
  · by_cases hneg : flags.MinSplitSize < 0
    · exact Or.inr (Or.inl hneg)
    · refine Or.inr (Or.inr (Or.inl ?_))
      omega
  · exact Or.inr (Or.inr (Or.inr h))

/-- The run of `downloadFile` on the branch of line 61: the probe, then the run of
`utils.DownloadFile`, then the line printed if that returned. -/
theorem commands.downloadFile_whole_run (env : Env)
    (downloadPath localPath localFileName logMsgPfx : String) (flags : Flags)
    (details : FileDetails)
    (hprobe : env.RemoteFileDetails downloadPath flags.ArtDetails = .ok details)
    (hfetch : commands.shouldDownloadFile env (localPath ++ "/" ++ localFileName) details
      flags.ArtDetails.User flags.ArtDetails.Password = .ok true)
    (hw : commands.downloadFile.whole flags details) :
    commands.downloadFile env downloadPath localPath localFileName logMsgPfx flags =
      Run.andThen ⟨[Event.GetFileDetailsFromArtifactory downloadPath flags.ArtDetails], .ok ()⟩
        (fun _ => Run.andThen
          (utils.DownloadFile env downloadPath localPath localFileName flags.Flat flags.ArtDetails)
          (fun resp => Run.emit
            (.Println (logMsgPfx ++ " Artifactory response:" ++ " " ++ resp.Status)))) := by
  simp [commands.downloadFile, Run.bind_eq, Run.andThen, utils.GetFileDetailsFromArtifactory,
    hprobe, Run.lift, hfetch, hw]

/-- The run of `downloadFile` on the branch of line 64: the probe and the call of the
split transfer with the remote size and the flags. -/
theorem commands.downloadFile_split_trace (env : Env)
    (downloadPath localPath localFileName logMsgPfx : String) (flags : Flags)
    (details : FileDetails)
    (hprobe : env.RemoteFileDetails downloadPath flags.ArtDetails = .ok details)
    (hfetch : commands.shouldDownloadFile env (localPath ++ "/" ++ localFileName) details
      flags.ArtDetails.User flags.ArtDetails.Password = .ok true)
    (hw : ¬ commands.downloadFile.whole flags details) :
    (commands.downloadFile env downloadPath localPath localFileName logMsgPfx flags).trace =
      [Event.GetFileDetailsFromArtifactory downloadPath flags.ArtDetails,
       Event.DownloadFileConcurrently downloadPath localPath localFileName logMsgPfx
         details.Size flags] := by
  simp [commands.downloadFile, Run.bind_eq, Run.andThen, utils.GetFileDetailsFromArtifactory,
    hprobe, Run.lift, hfetch, hw, utils.DownloadFileConcurrently]

/-- C1, on the range without overflow: when `downloadFile` decides to fetch, the
product `MinSplitSize*1000` stays below 2^63 and one of the four conditions of the
spec holds, the run calls `utils.DownloadFile` right after the probe and never calls
`utils.DownloadFileConcurrently`. -/
theorem commands.downloadFile_whole_of_chooseWhole (env : Env)
    (downloadPath localPath localFileName logMsgPfx : String) (flags : Flags)
    (details : FileDetails)
    (hprobe : env.RemoteFileDetails downloadPath flags.ArtDetails = .ok details)
    (hfetch : commands.shouldDownloadFile env (localPath ++ "/" ++ localFileName) details
      flags.ArtDetails.User flags.ArtDetails.Password = .ok true)
    (hno : flags.MinSplitSize * 1000 < 2 ^ 63)
    (h : RangePlanner.chooseWhole flags.SplitCount flags.MinSplitSize details.Size
      details.AcceptRanges) :
    (∃ rest,
      (commands.downloadFile env downloadPath localPath localFileName logMsgPfx flags).trace =
        Event.GetFileDetailsFromArtifactory downloadPath flags.ArtDetails ::
        Event.DownloadFile downloadPath localPath localFileName flags.Flat flags.ArtDetails ::
        rest) ∧
    (commands.downloadFile env downloadPath localPath localFileName logMsgPfx flags).All
      (fun e => e.isDownloadFileConcurrently = false) := by
  have hw := commands.downloadFile.whole_of_chooseWhole flags details hno h
  rw [commands.downloadFile_whole_run env downloadPath localPath localFileName logMsgPfx flags
    details hprobe hfetch hw]
  constructor
  · obtain ⟨rest, hrest⟩ := utils.DownloadFile_head env downloadPath localPath localFileName
      flags.Flat flags.ArtDetails
    simp only [Run.andThen, hrest]
    split <;> simp
  · refine Run.All.andThen ?_ (fun _ => Run.All.andThen
      (utils.DownloadFile_no_split _ _ _ _ _ _) (fun _ => Run.All.emit rfl))
    intro e he
    simp only [List.mem_singleton] at he
    rw [he]
    rfl

/-- C1 (the code departs from the claim): for `--min-split 9223372036854776`, an
artifact of 100 bytes on a server that accepts ranges and no local copy, the spec's
condition size < minSplitSize × 1000 holds, the product computed in int64 is
negative, and `downloadFile` calls `utils.DownloadFileConcurrently` and never
`utils.DownloadFile`. -/
theorem C1_min_split_overflow_takes_split_path :
    main.initFlags.minSplitSize
      { StringOf := fun name => if name = "min-split" then "9223372036854776" else "",
        BoolOf := fun _ => false, Args := [] } = .ok overflowFlags.MinSplitSize ∧
    RangePlanner.chooseWhole overflowFlags.SplitCount overflowFlags.MinSplitSize
      sampleRemote.Size sampleRemote.AcceptRanges ∧
    wrapInt64 (overflowFlags.MinSplitSize * 1000) = -9223372036854775616 ∧
    commands.shouldDownloadFile sampleEnv ("org/acme" ++ "/" ++ "b.zip") sampleRemote
      overflowFlags.ArtDetails.User overflowFlags.ArtDetails.Password = .ok true ∧
    (commands.downloadFile sampleEnv "http://localhost:8081/artifactory/libs/org/acme/b.zip"
      "org/acme" "b.zip" "[Thread 0]" overflowFlags).trace =
      [Event.GetFileDetailsFromArtifactory
        "http://localhost:8081/artifactory/libs/org/acme/b.zip" sampleDetails,
       Event.DownloadFileConcurrently "http://localhost:8081/artifactory/libs/org/acme/b.zip"
        "org/acme" "b.zip" "[Thread 0]" 100 overflowFlags] := by
  refine ⟨by rfl, by decide, by decide, by rfl, by decide⟩

/-- C2: when `downloadFile` decides to fetch an artifact whose size is an int64 value,
(a) if none of the four Whole conditions of the spec holds, the run is the probe
followed by the call of `utils.DownloadFileConcurrently` with the remote size and the
flags, and holds no call of `utils.DownloadFile`; (b) if the run holds a call of
`utils.DownloadFile`, one of the four conditions holds with the mathematical
product. -/
theorem C2_split_when_no_whole_condition (env : Env)
    (downloadPath localPath localFileName logMsgPfx : String) (flags : Flags)
    (details : FileDetails)
    (hprobe : env.RemoteFileDetails downloadPath flags.ArtDetails = .ok details)
    (hfetch : commands.shouldDownloadFile env (localPath ++ "/" ++ localFileName) details
      flags.ArtDetails.User flags.ArtDetails.Password = .ok true)
    (hsize : isInt64 details.Size) :
    (¬ RangePlanner.chooseWhole flags.SplitCount flags.MinSplitSize details.Size
        details.AcceptRanges →
      (commands.downloadFile env downloadPath localPath localFileName logMsgPfx flags).trace =
        [Event.GetFileDetailsFromArtifactory downloadPath flags.ArtDetails,
         Event.DownloadFileConcurrently downloadPath localPath localFileName logMsgPfx
           details.Size flags] ∧
      (commands.downloadFile env downloadPath localPath localFileName logMsgPfx flags).All
        (fun e => e.isDownloadFile = false)) ∧
    ((∃ e ∈ (commands.downloadFile env downloadPath localPath localFileName logMsgPfx
        flags).trace, e.isDownloadFile = true) →
      RangePlanner.chooseWhole flags.SplitCount flags.MinSplitSize details.Size
        details.AcceptRanges) := by
  have key : ¬ RangePlanner.chooseWhole flags.SplitCount flags.MinSplitSize details.Size
      details.AcceptRanges →
      (commands.downloadFile env downloadPath localPath localFileName logMsgPfx flags).trace =
        [Event.GetFileDetailsFromArtifactory downloadPath flags.ArtDetails,
         Event.DownloadFileConcurrently downloadPath localPath localFileName logMsgPfx
           details.Size flags] := by
    intro hn
    exact commands.downloadFile_split_trace env downloadPath localPath localFileName logMsgPfx
      flags details hprobe hfetch
      (fun hw => hn (commands.downloadFile.chooseWhole_of_whole flags details hsize hw))
  refine ⟨fun hn => ⟨key hn, ?_⟩, ?_⟩
  · intro e he
    rw [key hn] at he
    simp only [List.mem_cons, List.mem_singleton, List.not_mem_nil, or_false] at he
    rcases he with h | h <;> rw [h] <;> rfl
  · rintro ⟨e, he, hd⟩
    by_contra hn
    rw [key hn] at he
    simp only [List.mem_cons, List.mem_singleton, List.not_mem_nil, or_false] at he
    rcases he with h | h <;> rw [h] at hd <;> cases hd

/-- C2 at a concrete input: `--min-split 0`, an artifact of 100 bytes, ranges
accepted, no local copy. -/
theorem C2_split_when_no_whole_condition_witness :
    (commands.downloadFile sampleEnv "http://localhost:8081/artifactory/libs/a.zip" "." "a.zip"
        "[Thread 0]" { sampleFlags with MinSplitSize := 0 }).trace =
      [Event.GetFileDetailsFromArtifactory "http://localhost:8081/artifactory/libs/a.zip"
         sampleDetails,
       Event.DownloadFileConcurrently "http://localhost:8081/artifactory/libs/a.zip" "."
         "a.zip" "[Thread 0]" 100 { sampleFlags with MinSplitSize := 0 }] :=
  ((C2_split_when_no_whole_condition sampleEnv "http://localhost:8081/artifactory/libs/a.zip"
    "." "a.zip" "[Thread 0]" { sampleFlags with MinSplitSize := 0 } sampleRemote
    (by rfl) (by rfl) (by decide)).1 (by decide)).1

/-! ## shouldDownloadFile (C3) -/

/-- The function `IsFileExists` in terms of the answer of `os.Stat`. -/
theorem utils.IsFileExists_eq (env : Env) (path : String) :
    utils.IsFileExists env path =
      match env.Stat path with
      | .notExist => .ok false
      | .failed => .error .checkError
      | .found isDir => .ok (!isDir) := by
  unfold utils.IsFileExists utils.IsPathExists
  cases h : env.Stat path <;> simp [StatResult.info, utils.CheckError]

/-- C3: `shouldDownloadFile` returns true when nothing or a directory is at the local
path, whatever the remote digests are; when a file is there with digests `l`, it
returns false exactly if both the MD5 and the SHA-1 equal the remote ones, and true
otherwise; the user and password never matter. -/
theorem C3_shouldDownloadFile (env : Env) (localFilePath : String) (remote : FileDetails)
    (user password : String) :
    ((env.Stat localFilePath = .notExist ∨ env.Stat localFilePath = .found true) →
      commands.shouldDownloadFile env localFilePath remote user password = .ok true) ∧
    (∀ l : FileDetails, env.Stat localFilePath = .found false →
      env.GetFileDetails localFilePath = .ok l →
      (commands.shouldDownloadFile env localFilePath remote user password = .ok false ↔
        (l.Md5 = remote.Md5 ∧ l.Sha1 = remote.Sha1)) ∧
      (commands.shouldDownloadFile env localFilePath remote user password = .ok true ↔
        ¬ (l.Md5 = remote.Md5 ∧ l.Sha1 = remote.Sha1))) ∧
    (∀ user2 password2 : String,
      commands.shouldDownloadFile env localFilePath remote user2 password2 =
        commands.shouldDownloadFile env localFilePath remote user password) := by
  refine ⟨?_, ?_, fun _ _ => rfl⟩
  · intro h
    unfold commands.shouldDownloadFile
    rw [utils.IsFileExists_eq]
    rcases h with h | h <;> rw [h] <;> rfl
  · intro l hstat hlocal
    unfold commands.shouldDownloadFile
    rw [utils.IsFileExists_eq, hstat]
    simp only [Bool.not_false, bind, Except.bind, Bool.not_true, Bool.false_eq_true,
      if_false, hlocal]
    by_cases h : l.Md5 = remote.Md5 ∧ l.Sha1 = remote.Sha1
    · have h2 : ¬ (l.Md5 ≠ remote.Md5 ∨ l.Sha1 ≠ remote.Sha1) := by
        rintro (h2 | h2)
        · exact h2 h.1
        · exact h2 h.2
      simp [h2, h, pure, Except.pure]
    · have h2 : l.Md5 ≠ remote.Md5 ∨ l.Sha1 ≠ remote.Sha1 := by
        by_contra hc
        exact h ⟨by_contra (fun hm => hc (Or.inl hm)), by_contra (fun hs => hc (Or.inr hs))⟩
      simp [h2, h, pure, Except.pure]

/-- C3 at concrete inputs: identical digests give Skip; an equal MD5 with another
SHA-1, an equal SHA-1 with another MD5, and an empty remote digest give Fetch; no
local file gives Fetch. -/
theorem C3_shouldDownloadFile_witness :
    commands.shouldDownloadFile sampleEnvWithLocal "org/acme/b.zip" sampleRemote "u" "p" =
      .ok false ∧
    commands.shouldDownloadFile sampleEnvWithLocal "org/acme/b.zip"
      { sampleRemote with Sha1 := "da39a3ee5e6b4b0d3255bfef95601890afd80709" } "u" "p" =
      .ok true ∧
    commands.shouldDownloadFile sampleEnvWithLocal "org/acme/b.zip"
      { sampleRemote with Md5 := "d41d8cd98f00b204e9800998ecf8427e" } "u" "p" = .ok true ∧
    commands.shouldDownloadFile sampleEnvWithLocal "org/acme/b.zip"
      { sampleRemote with Md5 := "" } "u" "p" = .ok true ∧
    commands.shouldDownloadFile sampleEnvWithLocal "org/acme/c.zip" sampleRemote "u" "p" =
      .ok true :=
  ⟨((C3_shouldDownloadFile sampleEnvWithLocal "org/acme/b.zip" sampleRemote "u" "p").2.1
      sampleRemote (by rfl) (by rfl)).1.mpr (by decide),
   ((C3_shouldDownloadFile sampleEnvWithLocal "org/acme/b.zip" _ "u" "p").2.1
      sampleRemote (by rfl) (by rfl)).2.mpr (by decide),
   ((C3_shouldDownloadFile sampleEnvWithLocal "org/acme/b.zip" _ "u" "p").2.1
      sampleRemote (by rfl) (by rfl)).2.mpr (by decide),
   ((C3_shouldDownloadFile sampleEnvWithLocal "org/acme/b.zip" _ "u" "p").2.1
      sampleRemote (by rfl) (by rfl)).2.mpr (by decide),
   (C3_shouldDownloadFile sampleEnvWithLocal "org/acme/c.zip" sampleRemote "u" "p").1
      (Or.inl (by rfl))⟩

/-! ## downloadFiles: the striding workers (C4) -/

/-- The loop of a worker is its body run at the indices of the loop header. -/
theorem commands.downloadFiles.loop_eq_forEach (env : Env)
    (resultItems : List AqlSearchResultItem) (flags : Flags) (threadId : Int) (fuel : Nat)
    (j : Int) :
    commands.downloadFiles.loop env resultItems flags threadId fuel j =
      Run.forEach (commands.downloadFiles.body env resultItems flags threadId)
        (commands.downloadFiles.indices resultItems.length flags.Threads fuel j) := by
  induction fuel generalizing j with
  | zero => rfl
  | succ fuel ih =>
    unfold commands.downloadFiles.loop commands.downloadFiles.indices
    by_cases hj : j < (resultItems.length : Int)
    · by_cases h0 : 0 ≤ j
      · simp only [hj, h0, if_true, Run.forEach, ih]
      · have hb : commands.downloadFiles.body env resultItems flags threadId j =
            Run.lift (.error (.goPanic j)) := by
          simp [commands.downloadFiles.body, commands.itemAt, h0]
        simp only [hj, h0, if_true, if_false, Run.forEach, hb, Run.bind_eq, Run.andThen,
          Run.lift]
    · simp only [hj, if_false, Run.forEach]

/-- A worker is its body run at its indices. -/
theorem commands.downloadFiles.worker_eq_forEach (env : Env)
    (resultItems : List AqlSearchResultItem) (flags : Flags) (threadId : Int) :
    commands.downloadFiles.worker env resultItems flags threadId =
      Run.forEach (commands.downloadFiles.body env resultItems flags threadId)
        (commands.downloadFiles.workerIndices resultItems.length flags.Threads threadId) := by
  unfold commands.downloadFiles.worker commands.downloadFiles.workerIndices
  rw [commands.downloadFiles.loop_eq_forEach]
  rfl

/-- One round of the loop header. -/
theorem commands.downloadFiles.indices_succ (size threads : Int) (fuel : Nat) (j : Int) :
    commands.downloadFiles.indices size threads (fuel + 1) j =
      if j < size then
        if 0 ≤ j then
          j :: commands.downloadFiles.indices size threads fuel (wrapInt64 (j + threads))
        else [j]
      else [] := rfl

/-- More fuel than the rounds a worker can make changes nothing: with a positive
thread count, from a non-negative index at most `size - j` rounds and one more test
happen. -/
theorem commands.downloadFiles.indices_fuel (size threads : Int) (hsize : size < 2 ^ 63)
    (hT : 1 ≤ threads) (hT64 : threads < 2 ^ 63) (fuel : Nat) (j : Int) (hj : 0 ≤ j)
    (hfuel : (size - j).toNat + 1 ≤ fuel) :
    commands.downloadFiles.indices size threads (fuel + 1) j =
      commands.downloadFiles.indices size threads fuel j := by
  induction fuel generalizing j with
  | zero => omega
  | succ fuel ih =>
    rw [commands.downloadFiles.indices_succ size threads (fuel + 1) j,
      commands.downloadFiles.indices_succ size threads fuel j]
    by_cases hlt : j < size
    · simp only [hlt, hj, if_true]
      congr 1
      by_cases hw : j + threads < 2 ^ 63
      · have hwrap : wrapInt64 (j + threads) = j + threads :=
          wrapInt64_of_isInt64 ⟨by omega, hw⟩
        rw [hwrap]
        exact ih (j + threads) (by omega) (by omega)
      · have hneg : wrapInt64 (j + threads) < 0 := by
          unfold wrapInt64
          omega
        have hfuel1 : 1 ≤ fuel := by omega
        obtain ⟨k, rfl⟩ : ∃ k, fuel = k + 1 := ⟨fuel - 1, by omega⟩
        have hns : ¬ (0 ≤ wrapInt64 (j + threads)) := by omega
        rw [commands.downloadFiles.indices_succ size threads (k + 1) (wrapInt64 (j + threads)),
          commands.downloadFiles.indices_succ size threads k (wrapInt64 (j + threads))]
        simp only [hns, if_false]
    · simp only [hlt, if_false]

/-- The fuel of a worker is enough: with a thread count in `[1, 2^63)` and a thread id
that is not negative, any larger fuel gives the same run. -/
theorem commands.downloadFiles.worker_fuel (env : Env)
    (resultItems : List AqlSearchResultItem) (flags : Flags) (threadId : Int)
    (hlen : (resultItems.length : Int) < 2 ^ 63) (hT : 1 ≤ flags.Threads)
    (hT64 : flags.Threads < 2 ^ 63) (hid : 0 ≤ threadId) (k : Nat) :
    commands.downloadFiles.loop env resultItems flags threadId (resultItems.length + 1 + k)
      threadId = commands.downloadFiles.worker env resultItems flags threadId := by
  unfold commands.downloadFiles.worker
  rw [commands.downloadFiles.loop_eq_forEach, commands.downloadFiles.loop_eq_forEach]
  congr 1
  induction k with
  | zero => rfl
  | succ k ih =>
    rw [← ih]
    exact commands.downloadFiles.indices_fuel (resultItems.length : Int) flags.Threads hlen hT
      hT64 (resultItems.length + 1 + k) threadId hid (by omega)

/-- Without overflow, every index visited from a non-negative `j` lies in `[j, size)`.
-/
theorem commands.downloadFiles.indices_bounds (size threads : Int) (hT : 1 ≤ threads)
    (hno : size + threads ≤ 2 ^ 63) (fuel : Nat) (j : Int) (hj : 0 ≤ j) :
    ∀ x ∈ commands.downloadFiles.indices size threads fuel j, j ≤ x ∧ x < size := by
  induction fuel generalizing j with
  | zero => intro x hx; cases hx
  | succ fuel ih =>
    intro x hx
    rw [commands.downloadFiles.indices_succ] at hx
    by_cases hlt : j < size
    · simp only [hlt, hj, if_true, List.mem_cons] at hx
      rcases hx with rfl | hx
      · exact ⟨le_refl _, hlt⟩
      · have hwrap : wrapInt64 (j + threads) = j + threads :=
          wrapInt64_of_isInt64 ⟨by omega, by omega⟩
        rw [hwrap] at hx
        have := ih (j + threads) (by omega) x hx
        omega
    · simp only [hlt, if_false] at hx
      cases hx

/-- Without overflow the indices visited are strictly increasing. -/
theorem commands.downloadFiles.indices_sorted (size threads : Int) (hT : 1 ≤ threads)
    (hno : size + threads ≤ 2 ^ 63) (fuel : Nat) (j : Int) (hj : 0 ≤ j) :
    (commands.downloadFiles.indices size threads fuel j).Pairwise (· < ·) := by
  induction fuel generalizing j with
  | zero => exact List.Pairwise.nil
  | succ fuel ih =>
    rw [commands.downloadFiles.indices_succ]
    by_cases hlt : j < size
    · simp only [hlt, hj, if_true]
      have hwrap : wrapInt64 (j + threads) = j + threads :=
        wrapInt64_of_isInt64 ⟨by omega, by omega⟩
      rw [hwrap]
      refine List.Pairwise.cons ?_ (ih (j + threads) (by omega))
      intro x hx
      have := commands.downloadFiles.indices_bounds size threads hT hno fuel (j + threads)
        (by omega) x hx
      omega
    · simp only [hlt, if_false]
      exact List.Pairwise.nil

/-- Without overflow and with enough fuel, the indices visited from a non-negative
`j` are exactly `j, j + threads, j + 2 threads, ...` below `size`. -/
theorem commands.downloadFiles.mem_indices (size threads : Int) (hT : 1 ≤ threads)
    (hno : size + threads ≤ 2 ^ 63) (fuel : Nat) (j : Int) (hj : 0 ≤ j)
    (hfuel : (size - j).toNat + 1 ≤ fuel) (x : Int) :
    x ∈ commands.downloadFiles.indices size threads fuel j ↔
      j ≤ x ∧ x < size ∧ (x - j) % threads = 0 := by
  induction fuel generalizing j with
  | zero => omega
  | succ fuel ih =>
    rw [commands.downloadFiles.indices_succ]
    by_cases hlt : j < size
    · simp only [hlt, hj, if_true, List.mem_cons]
      have hwrap : wrapInt64 (j + threads) = j + threads :=
        wrapInt64_of_isInt64 ⟨by omega, by omega⟩
      rw [hwrap]
      have hshift : (x - (j + threads)) % threads = (x - j) % threads := by
        have : x - (j + threads) = (x - j) + (-1) * threads := by ring
        rw [this, Int.add_mul_emod_self]
      by_cases hnext : j + threads < size
      · rw [ih (j + threads) (by omega) (by omega), hshift]
        constructor
        · rintro (rfl | ⟨h1, h2, h3⟩)
          · exact ⟨le_refl _, hlt, by simp⟩
          · exact ⟨by omega, h2, h3⟩
        · rintro ⟨h1, h2, h3⟩
          by_cases hx : x = j
          · exact Or.inl hx
          · refine Or.inr ⟨?_, h2, h3⟩
            by_contra hc
            have hlt2 : x - j < threads := by omega
            rw [Int.emod_eq_of_lt (by omega) hlt2] at h3
            omega
      · have hnil : commands.downloadFiles.indices size threads fuel (j + threads) = [] := by
          cases fuel with
          | zero => rfl
          | succ k =>
            rw [commands.downloadFiles.indices_succ]
            simp only [hnext, if_false]
        rw [hnil]
        constructor
        · rintro (rfl | h)
          · exact ⟨le_refl _, hlt, by simp⟩
          · cases h
        · rintro ⟨h1, h2, h3⟩
          left
          have hlt2 : x - j < threads := by omega
          rw [Int.emod_eq_of_lt (by omega) hlt2] at h3
          omega
    · simp only [hlt, if_false, List.not_mem_nil, false_iff]
      omega

/-- For a thread id in `[0, threads)` the two ways to say that worker `i` owns the
index `x` agree. -/
theorem commands.downloadFiles.stride_iff (threads i x : Int) (hi : 0 ≤ i) (hiT : i < threads) :
    (i ≤ x ∧ (x - i) % threads = 0) ↔ (0 ≤ x ∧ x % threads = i) := by
  have hmod : i % threads = i := Int.emod_eq_of_lt hi hiT
  constructor
  · rintro ⟨h1, h2⟩
    refine ⟨by omega, ?_⟩
    have := Int.emod_eq_emod_iff_emod_sub_eq_zero.mpr h2
    rw [hmod] at this
    exact this
  · rintro ⟨h1, h2⟩
    constructor
    · have hdiv : 0 ≤ x / threads := Int.ediv_nonneg h1 (by omega)
      have hmul : 0 ≤ threads * (x / threads) := Int.mul_nonneg (by omega) hdiv
      have := Int.emod_add_ediv x threads
      omega
    · apply Int.emod_eq_emod_iff_emod_sub_eq_zero.mp
      rw [hmod]
      exact h2

/-- C4, on the range without overflow: for a thread count `threads ≥ 1` and `size`
items with `size + threads ≤ 2^63`, worker `i` of `0, ..., threads - 1` visits the
index `x` exactly once if `0 ≤ x < size` and `x mod threads = i`, and never
otherwise. So the workers visit pairwise disjoint sets of indices, all inside the
list, and every index of the list is visited by exactly one worker, exactly once. -/
theorem commands.downloadFiles.workerIndices_count (size threads : Int) (hT : 1 ≤ threads)
    (hsize : 0 ≤ size) (hno : size + threads ≤ 2 ^ 63) (i : Int) (hi : 0 ≤ i)
    (hiT : i < threads) (x : Int) :
    (commands.downloadFiles.workerIndices size threads i).count x =
      if 0 ≤ x ∧ x < size ∧ x % threads = i then 1 else 0 := by
  have hmem := commands.downloadFiles.mem_indices size threads hT hno (size.toNat + 1) i hi
    (by omega) x
  have hnodup : (commands.downloadFiles.workerIndices size threads i).Nodup :=
    (commands.downloadFiles.indices_sorted size threads hT hno (size.toNat + 1) i hi).nodup
  have hiff := commands.downloadFiles.stride_iff threads i x hi hiT
  unfold commands.downloadFiles.workerIndices at hnodup ⊢
  by_cases h : 0 ≤ x ∧ x < size ∧ x % threads = i
  · rw [if_pos h]
    exact List.count_eq_one_of_mem hnodup (hmem.mpr
      ⟨(hiff.mpr ⟨h.1, h.2.2⟩).1, h.2.1, (hiff.mpr ⟨h.1, h.2.2⟩).2⟩)
  · rw [if_neg h]
    apply List.count_eq_zero_of_not_mem
    intro hx
    have := hmem.mp hx
    exact h ⟨(hiff.mp ⟨this.1, this.2.2⟩).1, this.2.1, (hiff.mp ⟨this.1, this.2.2⟩).2⟩

/-- C4 (the code departs from the claim): `--threads 9223372036854775807` is accepted,
and with two result items worker 1 visits index 1, then `j += flags.Threads` wraps to
-9223372036854775808, which is below the size, so `resultItems[j]` is evaluated
outside the list and the goroutine panics. -/
theorem C4_stride_overflow_leaves_the_list :
    main.initFlags.threads
      { StringOf := fun name => if name = "threads" then "9223372036854775807" else "",
        BoolOf := fun _ => false, Args := [] } = .ok maxThreadsFlags.Threads ∧
    wrapInt64 (1 + maxThreadsFlags.Threads) = -9223372036854775808 ∧
    commands.downloadFiles.workerIndices (sampleItems.length : Int) maxThreadsFlags.Threads 1 =
      [1, -9223372036854775808] ∧
    commands.itemAt sampleItems (-9223372036854775808) = none ∧
    (commands.downloadFiles.worker sampleEnv sampleItems maxThreadsFlags 1).result =
      .error (.goPanic (-9223372036854775808)) := by
  refine ⟨by rfl, by decide, by decide, by rfl, by rfl⟩

/-! ## Dry run (C5) -/

theorem Run.All.forEach {P : Event → Prop} {f : Int → Run Unit} (hf : ∀ j, (f j).All P)
    (js : List Int) : (Run.forEach f js).All P := by
  induction js with
  | nil => exact Run.All.pure _
  | cons j js ih => exact Run.All.bind (hf j) (fun _ => ih)

/-- In dry-run mode a worker only prints: no event of its run reaches the network or
the file system. -/
theorem commands.downloadFiles.worker_dryRun (env : Env)
    (resultItems : List AqlSearchResultItem) (flags : Flags) (threadId : Int)
    (hdry : flags.DryRun = true) :
    (commands.downloadFiles.worker env resultItems flags threadId).All
      (fun e => e.isPrintln = true) := by
  rw [commands.downloadFiles.worker_eq_forEach]
  apply Run.All.forEach
  intro j
  unfold commands.downloadFiles.body
  cases commands.itemAt resultItems j with
  | none => exact Run.All.lift _
  | some item =>
    refine Run.All.bind (Run.All.emit rfl) (fun _ => ?_)
    simp only [hdry, Bool.not_true, Bool.false_eq_true, if_false]
    exact Run.All.pure _

/-- In dry-run mode without an SSH key, `Download` prints the query and does nothing
else: no network call, no file-system write, no worker. -/
theorem commands.Download_dryRun_no_ssh (env : Env) (downloadPattern : String) (flags : Flags)
    (hdry : flags.DryRun = true) (hkey : flags.ArtDetails.SshKeyPath = "") :
    (commands.Download env downloadPattern flags).main.trace =
      [Event.Println ("Searching Artifactory using AQL query: " ++
        env.BuildAqlSearchQuery downloadPattern flags.Recursive flags.Props)] ∧
    (commands.Download env downloadPattern flags).main.result =
      .ok (env.BuildAqlSearchQuery downloadPattern flags.Recursive flags.Props) ∧
    (commands.Download env downloadPattern flags).workers = [] := by
  simp [commands.Download, commands.Download.search, hdry, hkey, Run.bind_eq, Run.andThen,
    Run.pure_eq, Run.ret, Run.emit]

/-- The main goroutine of `Download` starts with the events of lines 15-28. -/
theorem commands.Download_main_trace (env : Env) (downloadPattern : String) (flags : Flags) :
    ∃ tail, (commands.Download env downloadPattern flags).main.trace =
      (commands.Download.search env downloadPattern flags).trace ++ tail := by
  unfold commands.Download
  simp only []
  split
  · exact ⟨[], (List.append_nil _).symm⟩
  · exact ⟨[], (List.append_nil _).symm⟩
  · split
    · exact ⟨[], (List.append_nil _).symm⟩
    · exact ⟨_, rfl⟩

/-- With an SSH key configured, the first event of `Download` is the call of
`utils.SshAuthentication`, in dry-run mode as in any other. -/
theorem commands.Download_ssh_first (env : Env) (downloadPattern : String) (flags : Flags)
    (hkey : flags.ArtDetails.SshKeyPath ≠ "") :
    ∃ rest, (commands.Download env downloadPattern flags).main.trace =
      Event.SshAuthentication flags.ArtDetails :: rest := by
  have hs : ∃ rest, (commands.Download.search env downloadPattern flags).trace =
      Event.SshAuthentication flags.ArtDetails :: rest := by
    simp only [commands.Download.search, hkey, ne_eq, not_false_eq_true, if_true, Run.bind_eq,
      Run.andThen, utils.SshAuthentication]
    split <;> exact ⟨_, rfl⟩
  obtain ⟨rest, hrest⟩ := hs
  obtain ⟨tail, htail⟩ := commands.Download_main_trace env downloadPattern flags
  exact ⟨rest ++ tail, by rw [htail, hrest]; rfl⟩

/-- C5, the claim as stated fails: with DryRun = true and a non-empty SshKeyPath,
`Download` calls `utils.SshAuthentication` before it looks at DryRun; the rest of the
run is the printed query, and no worker is started. -/
theorem C5_dry_run_still_authenticates_over_ssh :
    (commands.Download sampleEnv "libs/*" dryRunSshFlags).main.trace =
      [Event.SshAuthentication dryRunSshFlags.ArtDetails,
       Event.Println "Searching Artifactory using AQL query: items.find(libs/*)"] ∧
    (commands.Download sampleEnv "libs/*" dryRunSshFlags).workers = [] := by
  refine ⟨by decide, by rfl⟩

/-- The run of lines 15-28 in dry-run mode: the SSH step if a key is configured, then
the printed query. -/
theorem commands.Download.search_dryRun (env : Env) (downloadPattern : String) (flags : Flags)
    (hdry : flags.DryRun = true) :
    commands.Download.search env downloadPattern flags =
      if flags.ArtDetails.SshKeyPath = "" then
        ⟨[Event.Println ("Searching Artifactory using AQL query: " ++
            env.BuildAqlSearchQuery downloadPattern flags.Recursive flags.Props)],
          .ok (flags, env.BuildAqlSearchQuery downloadPattern flags.Recursive flags.Props,
            none)⟩
      else
        match env.SshAuthenticated flags.ArtDetails with
        | .ok d =>
          ⟨[Event.SshAuthentication flags.ArtDetails,
            Event.Println ("Searching Artifactory using AQL query: " ++
              env.BuildAqlSearchQuery downloadPattern flags.Recursive flags.Props)],
            .ok ({ flags with ArtDetails := d },
              env.BuildAqlSearchQuery downloadPattern flags.Recursive flags.Props, none)⟩
        | .error e => ⟨[Event.SshAuthentication flags.ArtDetails], .error e⟩ := by
  unfold commands.Download.search
  by_cases hkey : flags.ArtDetails.SshKeyPath = ""
  · have heta : ({ flags with ArtDetails := flags.ArtDetails } : Flags) = flags := rfl
    simp only [hkey, ne_eq, not_true_eq_false, if_false, if_true, Run.bind_eq, Run.andThen,
      Run.pure_eq, Run.ret, Run.emit, heta, hdry, Bool.not_true, Bool.false_eq_true,
      List.nil_append, List.append_nil, List.singleton_append]
    rw [← hdry]
  · cases hssh : env.SshAuthenticated flags.ArtDetails <;>
      simp [hkey, hdry, hssh, Run.bind_eq, Run.andThen, Run.pure_eq, Run.ret, Run.emit,
        utils.SshAuthentication]

/-- C5 as amended: for every download pattern and every configuration with
DryRun = true, `Download` hands nothing to `downloadFiles` and starts no worker, and
every event of its run is a printed line or the one call
`utils.SshAuthentication(flags.ArtDetails)`. With an empty SshKeyPath the run is the
printed query alone. With a non-empty SshKeyPath the run starts with that call and goes
on with the printed query if the call returns, and with nothing if it is fatal. A
worker of `downloadFiles` under DryRun = true only prints. -/
theorem C5_dry_run_effects (env : Env) (downloadPattern : String) (flags : Flags)
    (hdry : flags.DryRun = true) :
    (commands.Download env downloadPattern flags).items = none ∧
    (commands.Download env downloadPattern flags).workers = [] ∧
    (∀ e ∈ (commands.Download env downloadPattern flags).main.trace,
      e.isPrintln = true ∨ e = Event.SshAuthentication flags.ArtDetails) ∧
    (flags.ArtDetails.SshKeyPath = "" →
      (commands.Download env downloadPattern flags).main.trace =
        [Event.Println ("Searching Artifactory using AQL query: " ++
          env.BuildAqlSearchQuery downloadPattern flags.Recursive flags.Props)]) ∧
    (flags.ArtDetails.SshKeyPath ≠ "" →
      (∀ d, env.SshAuthenticated flags.ArtDetails = .ok d →
        (commands.Download env downloadPattern flags).main.trace =
          [Event.SshAuthentication flags.ArtDetails,
           Event.Println ("Searching Artifactory using AQL query: " ++
             env.BuildAqlSearchQuery downloadPattern flags.Recursive flags.Props)]) ∧
      (∀ err, env.SshAuthenticated flags.ArtDetails = .error err →
        (commands.Download env downloadPattern flags).main.trace =
          [Event.SshAuthentication flags.ArtDetails])) ∧
    (∀ (resultItems : List AqlSearchResultItem) (threadId : Int),
      (commands.downloadFiles.worker env resultItems flags threadId).All
        (fun e => e.isPrintln = true)) := by
  have hs := commands.Download.search_dryRun env downloadPattern flags hdry
  by_cases hkey : flags.ArtDetails.SshKeyPath = ""
  · rw [if_pos hkey] at hs
    have hrun : (commands.Download env downloadPattern flags).main.trace =
        [Event.Println ("Searching Artifactory using AQL query: " ++
          env.BuildAqlSearchQuery downloadPattern flags.Recursive flags.Props)] ∧
        (commands.Download env downloadPattern flags).items = none ∧
        (commands.Download env downloadPattern flags).workers = [] := by
      simp only [commands.Download, hs, and_self]
    refine ⟨hrun.2.1, hrun.2.2, ?_, fun _ => hrun.1, fun hne => absurd hkey hne,
      fun resultItems threadId =>
        commands.downloadFiles.worker_dryRun env resultItems flags threadId hdry⟩
    intro e he
    rw [hrun.1] at he
    simp only [List.mem_singleton] at he
    exact Or.inl (by rw [he]; rfl)
  · rw [if_neg hkey] at hs
    cases hssh : env.SshAuthenticated flags.ArtDetails with
    | ok d =>
      rw [hssh] at hs
      have hrun : (commands.Download env downloadPattern flags).main.trace =
          [Event.SshAuthentication flags.ArtDetails,
           Event.Println ("Searching Artifactory using AQL query: " ++
             env.BuildAqlSearchQuery downloadPattern flags.Recursive flags.Props)] ∧
          (commands.Download env downloadPattern flags).items = none ∧
          (commands.Download env downloadPattern flags).workers = [] := by
        simp only [commands.Download, hs, and_self]
      refine ⟨hrun.2.1, hrun.2.2, ?_, fun h => absurd h hkey,
        fun _ => ⟨fun _ _ => hrun.1, fun err herr => by cases herr⟩,
        fun resultItems threadId =>
          commands.downloadFiles.worker_dryRun env resultItems flags threadId hdry⟩
      intro e he
      rw [hrun.1] at he
      simp only [List.mem_cons, List.mem_singleton, List.not_mem_nil, or_false] at he
      rcases he with h | h
      · exact Or.inr h
      · exact Or.inl (by rw [h]; rfl)
    | error err =>
      rw [hssh] at hs
      have hrun : (commands.Download env downloadPattern flags).main.trace =
          [Event.SshAuthentication flags.ArtDetails] ∧
          (commands.Download env downloadPattern flags).items = none ∧
          (commands.Download env downloadPattern flags).workers = [] := by
        simp only [commands.Download, hs, and_self]
      refine ⟨hrun.2.1, hrun.2.2, ?_, fun h => absurd h hkey,
        fun _ => ⟨fun d hd => (by cases hd), fun _ _ => hrun.1⟩,
        fun resultItems threadId =>
          commands.downloadFiles.worker_dryRun env resultItems flags threadId hdry⟩
      intro e he
      rw [hrun.1] at he
      simp only [List.mem_singleton] at he
      exact Or.inr he

/-- C5 as amended, at a concrete configuration: DryRun = true with an SSH key. -/
theorem C5_dry_run_effects_witness :
    (commands.Download sampleEnv "libs/*" dryRunSshFlags).items = none ∧
    (commands.Download sampleEnv "libs/*" dryRunSshFlags).workers = [] ∧
    (∀ e ∈ (commands.Download sampleEnv "libs/*" dryRunSshFlags).main.trace,
      e.isPrintln = true ∨ e = Event.SshAuthentication dryRunSshFlags.ArtDetails) :=
  ⟨(C5_dry_run_effects sampleEnv "libs/*" dryRunSshFlags (by rfl)).1,
   (C5_dry_run_effects sampleEnv "libs/*" dryRunSshFlags (by rfl)).2.1,
   (C5_dry_run_effects sampleEnv "libs/*" dryRunSshFlags (by rfl)).2.2.1⟩

/-! ## Download: which responses are parsed and dispatched (C6) -/

/-- The result of lines 15-28 once the query was answered with `resp` and `json`. -/
theorem commands.Download.search_result (env : Env) (downloadPattern : String) (flags : Flags)
    (d : ArtifactoryDetails) (resp : Response) (json : String)
    (hdry : flags.DryRun = false)
    (hssh : commands.Download.sshStep env flags = .ok d)
    (hpost : (utils.SendPost env (d.Url ++ "api/search/aql")
      (env.BuildAqlSearchQuery downloadPattern flags.Recursive flags.Props) d).result =
        .ok (resp, json)) :
    (commands.Download.search env downloadPattern flags).result =
      if resp.StatusCode = 200 then
        match env.Unmarshal json with
        | some resultItems =>
          .ok ({ flags with ArtDetails := d },
            env.BuildAqlSearchQuery downloadPattern flags.Recursive flags.Props,
            some resultItems)
        | none => .error .checkError
      else
        .ok ({ flags with ArtDetails := d },
          env.BuildAqlSearchQuery downloadPattern flags.Recursive flags.Props, none) := by
  unfold commands.Download.sshStep at hssh
  unfold commands.Download.search
  by_cases hkey : flags.ArtDetails.SshKeyPath = ""
  · simp only [hkey, ne_eq, not_true_eq_false, if_false, Except.ok.injEq] at hssh
    subst hssh
    simp only [hkey, ne_eq, not_true_eq_false, if_false, Run.bind_eq, Run.andThen, Run.pure_eq,
      Run.ret, Run.emit, hdry, Bool.not_false, if_true, hpost, Run.lift,
      commands.parseAqlSearchResponse, utils.CheckError]
    by_cases h200 : resp.StatusCode = 200
    · simp only [h200, if_true]
      cases env.Unmarshal json <;> rfl
    · simp only [h200, if_false]
  · simp only [hkey, ne_eq, not_false_eq_true, if_true] at hssh
    simp only [hkey, ne_eq, not_false_eq_true, if_true, Run.bind_eq, Run.andThen, Run.pure_eq,
      Run.ret, Run.emit, hdry, Bool.not_false, hpost, Run.lift, utils.SshAuthentication, hssh,
      commands.parseAqlSearchResponse, utils.CheckError]
    by_cases h200 : resp.StatusCode = 200
    · simp only [h200, if_true]
      cases env.Unmarshal json <;> rfl
    · simp only [h200, if_false]

/-- C6, the claim as stated fails: the status 201 is a 2xx status, the body would
parse into two result items, and still `Download` hands nothing to `downloadFiles`
and starts no worker. -/
theorem C6_status_201_is_not_dispatched :
    (200 ≤ (201 : Int) ∧ (201 : Int) < 300) ∧
    createdEnv.Unmarshal "body" = some sampleItems ∧
    (commands.Download createdEnv "libs/*" sampleFlags).items = none ∧
    (commands.Download createdEnv "libs/*" sampleFlags).workers = [] ∧
    (commands.Download createdEnv "libs/*" sampleFlags).main.trace =
      [Event.Println "Searching Artifactory using AQL query: items.find(libs/*)",
       Event.ClientDo
         { Method := "POST", Url := "http://localhost:8081/artifactory/api/search/aql",
           Body := some "items.find(libs/*)", Close := true,
           Header := [("User-Agent", ["artifactory-cli-go/1.0.0"])] },
       Event.Println "Artifactory response: 201 Created"] := by
  refine ⟨by decide, by rfl, by rfl, by rfl, by decide⟩

/-- C6 as amended: once the query is answered with a response `resp` and a body
`json`, `Download` parses the body and hands the result items to `downloadFiles` if
and only if the status is exactly 200. For every other status, 2xx or not, nothing is
handed over, no worker is started and the run returns the query without a fatal
error; for status 200 a body that parses to `resultItems` is handed to
`downloadFiles`, and a body that does not parse is a fatal error. -/
theorem C6_dispatch_iff_status_200 (env : Env) (downloadPattern : String) (flags : Flags)
    (d : ArtifactoryDetails) (resp : Response) (json : String)
    (hdry : flags.DryRun = false)
    (hssh : commands.Download.sshStep env flags = .ok d)
    (hpost : (utils.SendPost env (d.Url ++ "api/search/aql")
      (env.BuildAqlSearchQuery downloadPattern flags.Recursive flags.Props) d).result =
        .ok (resp, json)) :
    (resp.StatusCode ≠ 200 →
      (commands.Download env downloadPattern flags).items = none ∧
      (commands.Download env downloadPattern flags).workers = [] ∧
      (commands.Download env downloadPattern flags).main.result =
        .ok (env.BuildAqlSearchQuery downloadPattern flags.Recursive flags.Props)) ∧
    (resp.StatusCode = 200 → ∀ resultItems, env.Unmarshal json = some resultItems →
      (commands.Download env downloadPattern flags).items = some resultItems ∧
      (commands.Download env downloadPattern flags).workers =
        commands.downloadFiles env resultItems { flags with ArtDetails := d }) ∧
    (resp.StatusCode = 200 → env.Unmarshal json = none →
      (commands.Download env downloadPattern flags).items = none ∧
      (commands.Download env downloadPattern flags).main.result = .error .checkError) := by
  have hres := commands.Download.search_result env downloadPattern flags d resp json hdry
    hssh hpost
  refine ⟨fun hne => ?_, fun h200 resultItems hparse => ?_, fun h200 hparse => ?_⟩
  · rw [if_neg hne] at hres
    simp only [commands.Download, hres, and_self]
  · rw [if_pos h200, hparse] at hres
    simp only [commands.Download, hres]
    constructor <;> split <;> rfl
  · rw [if_pos h200, hparse] at hres
    simp only [commands.Download, hres, and_self]

/-- C6 as amended, at concrete inputs: the sample server answers 200 and its two
result items are dispatched to three workers. -/
theorem C6_dispatch_iff_status_200_witness :
    (commands.Download sampleEnv "libs/*" sampleFlags).items = some sampleItems ∧
    (commands.Download sampleEnv "libs/*" sampleFlags).workers =
      commands.downloadFiles sampleEnv sampleItems
        { sampleFlags with ArtDetails := sampleDetails } :=
  (C6_dispatch_iff_status_200 sampleEnv "libs/*" sampleFlags sampleDetails
    { Status := "200 OK", StatusCode := 200 } "body" (by rfl) (by rfl) (by rfl)).2.1
    (by rfl) sampleItems (by rfl)

/-! ## buildDownloadUrl (C7) -/

/-- C7: `buildDownloadUrl` returns baseUrl ++ repo ++ "/" ++ name for an item at the
repository root (path "."), and baseUrl ++ repo ++ "/" ++ path ++ "/" ++ name for any
other item; in both cases the result starts with baseUrl ++ repo ++ "/" and ends with
"/" ++ name. -/
theorem C7_buildDownloadUrl (baseUrl : String) (resultItem : AqlSearchResultItem) :
    (resultItem.Path = "." →
      commands.buildDownloadUrl baseUrl resultItem =
        baseUrl ++ resultItem.Repo ++ "/" ++ resultItem.Name) ∧
    (resultItem.Path ≠ "." →
      commands.buildDownloadUrl baseUrl resultItem =
        baseUrl ++ resultItem.Repo ++ "/" ++ resultItem.Path ++ "/" ++ resultItem.Name) ∧
    (∃ rest, commands.buildDownloadUrl baseUrl resultItem =
      (baseUrl ++ resultItem.Repo ++ "/") ++ rest) ∧
    (∃ front, commands.buildDownloadUrl baseUrl resultItem =
      front ++ ("/" ++ resultItem.Name)) := by
  unfold commands.buildDownloadUrl
  by_cases h : resultItem.Path = "."
  · simp only [h, if_true, ne_eq, not_true_eq_false, false_implies, true_implies, true_and]
    exact ⟨⟨resultItem.Name, rfl⟩, ⟨baseUrl ++ resultItem.Repo, by simp [String.append_assoc]⟩⟩
  · simp only [h, if_false, ne_eq, not_false_eq_true, false_implies, true_implies, true_and]
    exact ⟨⟨resultItem.Path ++ "/" ++ resultItem.Name, by simp [String.append_assoc]⟩,
      ⟨baseUrl ++ resultItem.Repo ++ "/" ++ resultItem.Path, by simp [String.append_assoc]⟩⟩

/-- C7 at concrete inputs: an item at the repository root and an item below it. -/
theorem C7_buildDownloadUrl_witness :
    commands.buildDownloadUrl "http://localhost:8081/artifactory/"
      { Repo := "libs", Path := ".", Name := "a.zip" } =
      "http://localhost:8081/artifactory/libs/a.zip" ∧
    commands.buildDownloadUrl "http://localhost:8081/artifactory/"
      { Repo := "libs", Path := "org/acme", Name := "b.zip" } =
      "http://localhost:8081/artifactory/libs/org/acme/b.zip" :=
  ⟨(C7_buildDownloadUrl "http://localhost:8081/artifactory/"
      { Repo := "libs", Path := ".", Name := "a.zip" }).1 (by rfl),
   (C7_buildDownloadUrl "http://localhost:8081/artifactory/"
      { Repo := "libs", Path := "org/acme", Name := "b.zip" }).2.1 (by decide)⟩

/-! ## initFlags: thread count and split count (C8) -/

/-- What an accepted thread count looks like. -/
theorem main.initFlags.threads_ok (c : Context) (t : Int)
    (h : main.initFlags.threads c = .ok t) :
    (c.StringOf "threads" = "" ∧ t = 3) ∨
    (c.StringOf "threads" ≠ "" ∧ strconv.Atoi (c.StringOf "threads") = some t ∧ 1 ≤ t) := by
  unfold main.initFlags.threads at h
  by_cases he : c.StringOf "threads" = ""
  · simp only [he, if_true, pure, Except.pure, Except.ok.injEq] at h
    exact Or.inl ⟨he, h.symm⟩
  · simp only [he, if_false] at h
    cases ha : strconv.Atoi (c.StringOf "threads") with
    | none => simp [ha, utils.Exit] at h
    | some v =>
      simp only [ha] at h
      by_cases hv : v < 1
      · simp [hv, utils.Exit] at h
      · simp only [hv, if_false, pure, Except.pure, Except.ok.injEq] at h
        exact Or.inr ⟨he, by rw [h], by omega⟩

/-- What an accepted split count looks like. -/
theorem main.initFlags.splitCount_ok (c : Context) (n : Int)
    (h : main.initFlags.splitCount c = .ok n) :
    (c.StringOf "split-count" = "" ∧ n = 3) ∨
    (c.StringOf "split-count" ≠ "" ∧ strconv.Atoi (c.StringOf "split-count") = some n ∧
      0 ≤ n ∧ n ≤ 15) := by
  unfold main.initFlags.splitCount at h
  by_cases he : c.StringOf "split-count" = ""
  · simp only [he, if_true, pure, Except.pure, Except.ok.injEq] at h
    exact Or.inl ⟨he, h.symm⟩
  · simp only [he, if_false] at h
    cases ha : strconv.Atoi (c.StringOf "split-count") with
    | none => simp [ha, utils.Exit] at h
    | some v =>
      simp only [ha] at h
      by_cases hv : v > 15
      · simp [hv, utils.Exit] at h
      · by_cases hv0 : v < 0
        · simp [hv, hv0, utils.Exit] at h
        · simp only [hv, hv0, if_false, pure, Except.pure, Except.ok.injEq] at h
          exact Or.inr ⟨he, by rw [h], by omega, by omega⟩

/-- The flags that `initFlags` accepts carry the values of the two validation steps.
-/
theorem main.initFlags_ok (env : Env) (c : Context) (cmd : String) (flags : Flags)
    (h : main.initFlags env c cmd = .ok flags) :
    main.initFlags.threads c = .ok flags.Threads ∧
    main.initFlags.splitCount c = .ok flags.SplitCount := by
  unfold main.initFlags at h
  simp only [bind, Except.bind, pure, Except.pure] at h
  split at h
  · cases h
  · split at h
    · cases h
    · split at h
      · cases h
      · split at h
        · cases h
        · split at h
          · cases h
          · simp only [Except.ok.injEq] at h
            subst h
            constructor <;> assumption

/-- Every fatal exit of `initFlags` carries the error exit code. -/
theorem main.initFlags_error (env : Env) (c : Context) (cmd : String) (e : Fatal)
    (h : main.initFlags env c cmd = .error e) : ∃ msg, e = .exit .ExitCodeError msg := by
  have hart : ∀ i e, main.initFlags.artDetails env c cmd i = .error e →
      ∃ msg, e = .exit .ExitCodeError msg := by
    intro i e h
    unfold main.initFlags.artDetails at h
    simp only [utils.Exit, pure, Except.pure] at h
    split at h <;> split at h <;> cases h <;> exact ⟨_, rfl⟩
  have hthreads : ∀ e, main.initFlags.threads c = .error e →
      ∃ msg, e = .exit .ExitCodeError msg := by
    intro e h
    unfold main.initFlags.threads at h
    simp only [utils.Exit, pure, Except.pure] at h
    split at h
    · cases h
    · split at h
      · cases h; exact ⟨_, rfl⟩
      · split at h
        · cases h; exact ⟨_, rfl⟩
        · cases h
  have hmin : ∀ e, main.initFlags.minSplitSize c = .error e →
      ∃ msg, e = .exit .ExitCodeError msg := by
    intro e h
    unfold main.initFlags.minSplitSize at h
    simp only [utils.Exit, pure, Except.pure] at h
    split at h
    · cases h
    · split at h
      · cases h; exact ⟨_, rfl⟩
      · cases h
  have hsplit : ∀ e, main.initFlags.splitCount c = .error e →
      ∃ msg, e = .exit .ExitCodeError msg := by
    intro e h
    unfold main.initFlags.splitCount at h
    simp only [utils.Exit, pure, Except.pure] at h
    split at h
    · cases h
    · split at h
      · cases h; exact ⟨_, rfl⟩
      · split at h
        · cases h; exact ⟨_, rfl⟩
        · split at h
          · cases h; exact ⟨_, rfl⟩
          · cases h
  unfold main.initFlags at h
  simp only [bind, Except.bind, pure, Except.pure] at h
  split at h
  · rename_i e1 h1
    cases h
    exact hart _ _ h1
  · split at h
    · rename_i e2 h2
      cases h
      simp only [utils.Exit] at h2
      split at h2
      · cases h2; exact ⟨_, rfl⟩
      · cases h2
    · split at h
      · rename_i e3 h3
        cases h
        exact hthreads _ h3
      · split at h
        · rename_i e4 h4
          cases h
          exact hmin _ h4
        · split at h
          · rename_i e5 h5
            cases h
            exact hsplit _ h5
          · cases h

/-- C8: the flags that `initFlags` accepts have Threads ≥ 1 and 0 ≤ SplitCount ≤ 15;
an absent `--threads` gives 3, an absent `--split-count` gives 3, and a value that is
given is taken as parsed, never adjusted. A `--threads` that is not a number or is
below 1, and a `--split-count` that is not a number, is above 15 or is negative, end
`initFlags` with a fatal exit carrying the error exit code. -/
theorem C8_initFlags_validates (env : Env) (c : Context) (cmd : String) :
    (∀ flags, main.initFlags env c cmd = .ok flags →
      (1 ≤ flags.Threads ∧ 0 ≤ flags.SplitCount ∧ flags.SplitCount ≤ 15) ∧
      (c.StringOf "threads" = "" → flags.Threads = 3) ∧
      (c.StringOf "split-count" = "" → flags.SplitCount = 3) ∧
      (c.StringOf "threads" ≠ "" →
        strconv.Atoi (c.StringOf "threads") = some flags.Threads) ∧
      (c.StringOf "split-count" ≠ "" →
        strconv.Atoi (c.StringOf "split-count") = some flags.SplitCount)) ∧
    (c.StringOf "threads" ≠ "" →
      (∀ t, strconv.Atoi (c.StringOf "threads") = some t → t < 1) →
      ∃ msg, main.initFlags env c cmd = .error (.exit .ExitCodeError msg)) ∧
    (c.StringOf "split-count" ≠ "" →
      (∀ n, strconv.Atoi (c.StringOf "split-count") = some n → n > 15 ∨ n < 0) →
      ∃ msg, main.initFlags env c cmd = .error (.exit .ExitCodeError msg)) := by
  have hok : ∀ flags, main.initFlags env c cmd = .ok flags →
      (1 ≤ flags.Threads ∧ 0 ≤ flags.SplitCount ∧ flags.SplitCount ≤ 15) ∧
      (c.StringOf "threads" = "" → flags.Threads = 3) ∧
      (c.StringOf "split-count" = "" → flags.SplitCount = 3) ∧
      (c.StringOf "threads" ≠ "" →
        strconv.Atoi (c.StringOf "threads") = some flags.Threads) ∧
      (c.StringOf "split-count" ≠ "" →
        strconv.Atoi (c.StringOf "split-count") = some flags.SplitCount) := by
    intro flags h
    obtain ⟨ht, hs⟩ := main.initFlags_ok env c cmd flags h
    have ht2 := main.initFlags.threads_ok c _ ht
    have hs2 := main.initFlags.splitCount_ok c _ hs
    refine ⟨⟨?_, ?_, ?_⟩, ?_, ?_, ?_, ?_⟩
    · rcases ht2 with ⟨_, h3⟩ | ⟨_, _, h1⟩ <;> omega
    · rcases hs2 with ⟨_, h3⟩ | ⟨_, _, h1, _⟩ <;> omega
    · rcases hs2 with ⟨_, h3⟩ | ⟨_, _, _, h1⟩ <;> omega
    · intro he
      rcases ht2 with ⟨_, h3⟩ | ⟨hne, _, _⟩
      · exact h3
      · exact absurd he hne
    · intro he
      rcases hs2 with ⟨_, h3⟩ | ⟨hne, _, _⟩
      · exact h3
      · exact absurd he hne
    · intro hne
      rcases ht2 with ⟨he, _⟩ | ⟨_, ha, _⟩
      · exact absurd he hne
      · exact ha
    · intro hne
      rcases hs2 with ⟨he, _⟩ | ⟨_, ha, _⟩
      · exact absurd he hne
      · exact ha
  refine ⟨hok, ?_, ?_⟩
  · intro hne hbad
    cases hres : main.initFlags env c cmd with
    | error e =>
      obtain ⟨msg, hmsg⟩ := main.initFlags_error env c cmd e hres
      exact ⟨msg, by rw [hmsg]⟩
    | ok flags =>
      obtain ⟨⟨h1, _, _⟩, _, _, h4, _⟩ := hok flags hres
      have := hbad _ (h4 hne)
      omega
  · intro hne hbad
    cases hres : main.initFlags env c cmd with
    | error e =>
      obtain ⟨msg, hmsg⟩ := main.initFlags_error env c cmd e hres
      exact ⟨msg, by rw [hmsg]⟩
    | ok flags =>
      obtain ⟨⟨_, h2, h3⟩, _, _, _, h5⟩ := hok flags hres
      have := hbad _ (h5 hne)
      omega

/-- C8 at a concrete command line: `--threads 4 --split-count 15` is accepted with
these values. -/
theorem C8_initFlags_validates_witness :
    main.initFlags sampleEnv sampleContext "download" =
      .ok { sampleFlags with Threads := 4, SplitCount := 15 } ∧
    (1 ≤ (4 : Int) ∧ 0 ≤ (15 : Int) ∧ (15 : Int) ≤ 15) :=
  ⟨by rfl, ((C8_initFlags_validates sampleEnv sampleContext "download").1
    { sampleFlags with Threads := 4, SplitCount := 15 } (by rfl)).1⟩

/-! ## upload: the exit verdict (C9) -/

/-- The exit taken for a pair of counts. -/
theorem main.upload.verdict_eq (uploaded failed : Int) :
    main.upload.verdict uploaded failed =
      if failed > 0 then
        if uploaded > 0 then .error (.exit .ExitCodeWarning "")
        else .error (.exit .ExitCodeError "")
      else .ok () := by
  unfold main.upload.verdict
  by_cases hf : failed > 0
  · by_cases hu : uploaded > 0
    · simp only [hf, hu, if_true, bind, Except.bind, utils.Exit]
    · simp only [hf, hu, if_true, if_false, bind, Except.bind, utils.Exit, pure, Except.pure]
  · simp only [hf, if_false, pure, Except.pure]

/-- C9: when `initFlags` accepts the command line, two arguments are given and
`commands.Upload` returns the non-negative counts (uploaded, failed), `upload` ends
without an exit if failed = 0, with the warning exit code if failed > 0 and
uploaded > 0, and with the error exit code if failed > 0 and uploaded = 0; one of the
three cases always applies. -/
theorem C9_upload_verdict (env : Env) (c : Context) (flags : Flags)
    (localPath targetPath : String) (uploaded failed : Int)
    (hflags : main.initFlags env c "upload" = .ok flags)
    (hargs : c.Args = [localPath, targetPath])
    (hup : env.Upload localPath targetPath flags = .ok (uploaded, failed))
    (hu : 0 ≤ uploaded) (hf : 0 ≤ failed) :
    (failed = 0 → main.upload env c = .ok ()) ∧
    (failed > 0 → uploaded > 0 → main.upload env c = .error (.exit .ExitCodeWarning "")) ∧
    (failed > 0 → uploaded = 0 → main.upload env c = .error (.exit .ExitCodeError "")) ∧
    (failed = 0 ∨ (failed > 0 ∧ uploaded > 0) ∨ (failed > 0 ∧ uploaded = 0)) := by
  have hrun : main.upload env c = main.upload.verdict uploaded failed := by
    unfold main.upload
    simp only [hflags, hargs, hup, bind, Except.bind]
  rw [hrun, main.upload.verdict_eq]
  refine ⟨fun h0 => ?_, fun hpos hupos => ?_, fun hpos hu0 => ?_, by omega⟩
  · have : ¬ failed > 0 := by omega
    simp only [this, if_false]
  · simp only [hpos, hupos, if_true]
  · have : ¬ uploaded > 0 := by omega
    simp only [hpos, this, if_true, if_false]

/-- C9 at a concrete run: two files uploaded and one failed give the warning exit. -/
theorem C9_upload_verdict_witness :
    main.upload sampleEnv sampleUploadContext = .error (.exit .ExitCodeWarning "") :=
  (C9_upload_verdict sampleEnv sampleUploadContext { sampleFlags with Flat := true }
    "build/*.zip" "libs/" 2 1 (by rfl) (by rfl) (by rfl) (by decide) (by decide)).2.1
    (by decide) (by decide)

/-! ## Send: what becomes of the pre-built authentication headers (C10) -/

/-- Filtering out another name does not change what is stored under `name`. -/
theorem Header.lookup_filter_ne (h : Header) (name key : String) (hne : key ≠ name) :
    List.lookup name (h.filter (fun kv => kv.1 != key)) = List.lookup name h := by
  induction h with
  | nil => rfl
  | cons kv rest ih =>
    obtain ⟨k, vs⟩ := kv
    by_cases hk : k = key
    · subst hk
      have hnk : (name == k) = false := by
        simp only [beq_eq_false_iff_ne, ne_eq]
        exact fun h => hne h.symm
      simp only [List.filter, bne_self_eq_false, List.lookup, hnk]
      exact ih
    · have hb : (k != key) = true := by simp [hk]
      simp only [List.filter, hb, List.lookup]
      cases hnk : (name == k) with
      | true => rfl
      | false => exact ih

/-- After `Set(key, value)` the canonical name of `key` holds exactly `[value]` and
every other name holds what it held. -/
theorem Header.values_Set (env : Env) (h : Header) (key value name : String) :
    Header.values (Header.Set env h key value) name =
      if env.CanonicalMIMEHeaderKey key = name then some [value] else Header.values h name := by
  unfold Header.values Header.Set
  by_cases hk : env.CanonicalMIMEHeaderKey key = name
  · simp only [hk, if_true, List.lookup, beq_self_eq_true]
  · have hnk : (name == env.CanonicalMIMEHeaderKey key) = false := by
      simp only [beq_eq_false_iff_ne, ne_eq]
      exact fun h => hk h.symm
    simp only [hk, if_false, List.lookup, hnk]
    exact Header.lookup_filter_ne h name _ hk

/-- A loop of `Set` calls that never names `name` leaves `name` alone. -/
theorem Request.setAll_other (env : Env) (m : List (String × String)) (req : Request)
    (name : String) (hm : ∀ kv ∈ m, env.CanonicalMIMEHeaderKey kv.1 ≠ name) :
    Header.values (req.setAll env m).Header name = Header.values req.Header name := by
  induction m generalizing req with
  | nil => rfl
  | cons kv rest ih =>
    have hstep : Request.setAll env req (kv :: rest) =
        Request.setAll env (req.HeaderSet env kv.1 kv.2) rest := rfl
    rw [hstep, ih _ (fun kv2 h2 => hm kv2 (List.mem_cons_of_mem _ h2))]
    simp only [Request.HeaderSet, Header.values_Set,
      hm kv (List.mem_cons_self _ _), if_false]

/-- A loop of `Set` calls in which every entry stored under `name` carries `value`
leaves `[value]` under `name`, if such an entry occurs or `[value]` was there. -/
theorem Request.setAll_same (env : Env) (m : List (String × String)) (req : Request)
    (name value : String)
    (hm : ∀ kv ∈ m, env.CanonicalMIMEHeaderKey kv.1 = name → kv.2 = value)
    (hex : (∃ kv ∈ m, env.CanonicalMIMEHeaderKey kv.1 = name) ∨
      Header.values req.Header name = some [value]) :
    Header.values (req.setAll env m).Header name = some [value] := by
  induction m generalizing req with
  | nil =>
    rcases hex with ⟨kv, hkv, _⟩ | h
    · cases hkv
    · exact h
  | cons kv rest ih =>
    have hstep : Request.setAll env req (kv :: rest) =
        Request.setAll env (req.HeaderSet env kv.1 kv.2) rest := rfl
    rw [hstep]
    apply ih _ (fun kv2 h2 => hm kv2 (List.mem_cons_of_mem _ h2))
    by_cases hk : env.CanonicalMIMEHeaderKey kv.1 = name
    · right
      simp only [Request.HeaderSet, Header.values_Set, hk, if_true,
        hm kv (List.mem_cons_self _ _) hk]
    · rcases hex with ⟨kv2, hkv2, hname⟩ | h
      · rcases List.mem_cons.mp hkv2 with rfl | hin
        · exact absurd hname hk
        · exact Or.inl ⟨kv2, hin, hname⟩
      · right
        simp only [Request.HeaderSet, Header.values_Set, hk, if_false]
        exact h

/-- The request that `Send` hands to `client.Do`. -/
theorem utils.Send_trace (env : Env) (method url : String) (content : Option String)
    (headers : Option (List (String × String))) (details : ArtifactoryDetails) (req : Request)
    (hreq : env.NewRequest method url content = some req) :
    (utils.Send env method url content headers details).trace =
      [Event.ClientDo (utils.Send.prepare env req headers details)] := by
  simp [utils.Send, Run.bind_eq, Run.andThen, Run.lift, Run.emit, utils.CheckError, hreq]

/-- Whatever the pre-built headers are, an extra header of the caller ends up in the
request under its canonical name, if every extra header of that canonical name carries
the same value. -/
theorem utils.Send.prepare_extra (env : Env) (req0 : Request)
    (hs : List (String × String)) (details : ArtifactoryDetails) (name value : String)
    (hin : (name, value) ∈ hs)
    (hsame : ∀ kv ∈ hs,
      env.CanonicalMIMEHeaderKey kv.1 = env.CanonicalMIMEHeaderKey name → kv.2 = value) :
    Header.values (utils.Send.prepare env req0 (some hs) details).Header
      (env.CanonicalMIMEHeaderKey name) = some [value] := by
  unfold utils.Send.prepare
  exact Request.setAll_same env hs _ _ value hsame (Or.inl ⟨(name, value), hin, rfl⟩)

/-- Whatever the pre-built headers are, the request carries the User-Agent of
`addUserAgentHeader`, if no extra header of the caller has that canonical name. -/
theorem utils.Send.prepare_userAgent (env : Env) (req0 : Request)
    (headers : Option (List (String × String))) (details : ArtifactoryDetails)
    (hextra : ∀ hs, headers = some hs →
      ∀ kv ∈ hs, env.CanonicalMIMEHeaderKey kv.1 ≠ env.CanonicalMIMEHeaderKey "User-Agent") :
    Header.values (utils.Send.prepare env req0 headers details).Header
      (env.CanonicalMIMEHeaderKey "User-Agent") =
      some ["artifactory-cli-go/" ++ env.GetVersion] := by
  have hagent : Header.values
      (utils.addUserAgentHeader env
        (utils.addAuthHeaders env { req0 with Close := true } details)).Header
      (env.CanonicalMIMEHeaderKey "User-Agent") =
      some ["artifactory-cli-go/" ++ env.GetVersion] := by
    unfold utils.addUserAgentHeader
    simp only [Request.HeaderSet, Header.values_Set, if_true]
  unfold utils.Send.prepare
  cases headers with
  | none => exact hagent
  | some hs =>
    simp only []
    rw [Request.setAll_other env hs _ _ (hextra hs rfl)]
    exact hagent

/-- C10, the claim as stated fails: (a) the pre-built header Authorization: Bearer ssh
is replaced by the caller's extra header authorization, which `Set` stores under the
same canonical name; (b) a pre-built header User-Agent is replaced by the one of
`addUserAgentHeader`. -/
theorem C10_auth_header_overwritten :
    (utils.Send sampleEnv "GET" "http://localhost:8081/artifactory/libs/a.zip" none
        (some [("authorization", "Basic b3RoZXI6b3RoZXI=")]) sshDetails).trace =
      [Event.ClientDo
        { Method := "GET", Url := "http://localhost:8081/artifactory/libs/a.zip", Body := none,
          Close := true,
          Header := [("Authorization", ["Basic b3RoZXI6b3RoZXI="]),
                     ("User-Agent", ["artifactory-cli-go/1.0.0"])] }] ∧
    (utils.Send sampleEnv "GET" "http://localhost:8081/artifactory/libs/a.zip" none none
        { sampleDetails with SshAuthHeaders := some [("User-Agent", "ssh-agent/7")] }).trace =
      [Event.ClientDo
        { Method := "GET", Url := "http://localhost:8081/artifactory/libs/a.zip", Body := none,
          Close := true, Header := [("User-Agent", ["artifactory-cli-go/1.0.0"])] }] := by
  refine ⟨by decide, by decide⟩

/-- C10 as amended: for every request built by `Send`, with any pre-built
SshAuthHeaders map and any extra headers map, a pre-built authentication header
(name, value) is present in the request handed to `client.Do` with exactly the value
supplied, under the canonical name that `http.Header.Set` gives it, provided that
every pre-built header with the same canonical name carries the same value, the
canonical name is not that of User-Agent, and no extra header of the caller has that
canonical name. -/
theorem C10_auth_header_kept (env : Env) (method url : String) (content : Option String)
    (headers : Option (List (String × String))) (details : ArtifactoryDetails)
    (req0 : Request) (sshAuthHeaders : List (String × String)) (name value : String)
    (hreq : env.NewRequest method url content = some req0)
    (hssh : details.SshAuthHeaders = some sshAuthHeaders)
    (hin : (name, value) ∈ sshAuthHeaders)
    (hsame : ∀ kv ∈ sshAuthHeaders,
      env.CanonicalMIMEHeaderKey kv.1 = env.CanonicalMIMEHeaderKey name → kv.2 = value)
    (hua : env.CanonicalMIMEHeaderKey "User-Agent" ≠ env.CanonicalMIMEHeaderKey name)
    (hextra : ∀ hs, headers = some hs →
      ∀ kv ∈ hs, env.CanonicalMIMEHeaderKey kv.1 ≠ env.CanonicalMIMEHeaderKey name) :
    ∃ req, (utils.Send env method url content headers details).trace = [Event.ClientDo req] ∧
      Header.values req.Header (env.CanonicalMIMEHeaderKey name) = some [value] := by
  refine ⟨_, utils.Send_trace env method url content headers details req0 hreq, ?_⟩
  have hauth : Header.values
      (utils.addAuthHeaders env { req0 with Close := true } details).Header
      (env.CanonicalMIMEHeaderKey name) = some [value] := by
    unfold utils.addAuthHeaders
    rw [hssh]
    exact Request.setAll_same env sshAuthHeaders _ _ value hsame (Or.inl ⟨(name, value), hin, rfl⟩)
  have hagent : Header.values
      (utils.addUserAgentHeader env
        (utils.addAuthHeaders env { req0 with Close := true } details)).Header
      (env.CanonicalMIMEHeaderKey name) = some [value] := by
    unfold utils.addUserAgentHeader
    simp only [Request.HeaderSet, Header.values_Set, hua, if_false]
    exact hauth
  unfold utils.Send.prepare
  cases headers with
  | none => exact hagent
  | some hs =>
    simp only []
    rw [Request.setAll_other env hs _ _ (hextra hs rfl)]
    exact hagent

/-- C10 as amended, at a concrete request: a GET with a Range header keeps the
pre-built Authorization header. -/
theorem C10_auth_header_kept_witness :
    ∃ req, (utils.Send sampleEnv "GET" "http://localhost:8081/artifactory/libs/a.zip" none
        (some [("Range", "bytes=0-49")]) sshDetails).trace = [Event.ClientDo req] ∧
      Header.values req.Header (sampleEnv.CanonicalMIMEHeaderKey "Authorization") =
        some ["Bearer ssh"] :=
  C10_auth_header_kept sampleEnv "GET" "http://localhost:8081/artifactory/libs/a.zip" none
    (some [("Range", "bytes=0-49")]) sshDetails
    { Method := "GET", Url := "http://localhost:8081/artifactory/libs/a.zip", Body := none,
      Close := false, Header := [] }
    [("Authorization", "Bearer ssh")] "Authorization" "Bearer ssh" (by rfl) (by rfl)
    (by decide) (by decide) (by decide) (by decide)

/-! ## downloadFile: the path checked and the path written (C11) -/

/-- The staleness decision reads the local file system at its path argument only. -/
theorem commands.shouldDownloadFile_reads (env : Env) (stat : String → StatResult)
    (getFileDetails : String → Except Fatal FileDetails) (localFilePath : String)
    (remote : FileDetails) (user password : String)
    (hstat : stat localFilePath = env.Stat localFilePath)
    (hget : getFileDetails localFilePath = env.GetFileDetails localFilePath) :
    commands.shouldDownloadFile { env with Stat := stat, GetFileDetails := getFileDetails }
      localFilePath remote user password =
    commands.shouldDownloadFile env localFilePath remote user password := by
  simp only [commands.shouldDownloadFile, utils.IsFileExists, utils.IsPathExists, hstat, hget]

/-- The path that `downloadFile` tests for existence and digests is
localPath + "/" + localFileName: a file system that differs anywhere else gives the
same run. -/
theorem commands.downloadFile_checked_path (env : Env) (stat : String → StatResult)
    (getFileDetails : String → Except Fatal FileDetails)
    (downloadPath localPath localFileName logMsgPfx : String) (flags : Flags)
    (hstat : stat (localPath ++ "/" ++ localFileName) =
      env.Stat (localPath ++ "/" ++ localFileName))
    (hget : getFileDetails (localPath ++ "/" ++ localFileName) =
      env.GetFileDetails (localPath ++ "/" ++ localFileName)) :
    commands.downloadFile { env with Stat := stat, GetFileDetails := getFileDetails }
      downloadPath localPath localFileName logMsgPfx flags =
    commands.downloadFile env downloadPath localPath localFileName logMsgPfx flags := by
  simp only [commands.downloadFile,
    commands.shouldDownloadFile_reads env stat getFileDetails _ _ _ _ hstat hget]
  rfl

/-- The name that `DownloadFile` creates is the path that `downloadFile` checked
exactly when the flat flag is off and the local path is not empty. -/
theorem utils.DownloadFile.target_eq_checked_iff (localPath fileName : String) (flat : Bool) :
    utils.DownloadFile.target localPath fileName flat = localPath ++ "/" ++ fileName ↔
      (flat = false ∧ localPath ≠ "") := by
  unfold utils.DownloadFile.target
  constructor
  · intro h
    by_contra hc
    have hcond : (!flat && localPath != "") = false := by
      cases flat
      · simp only [not_and, forall_const, ne_eq, not_not, true_and] at hc
        simp [hc]
      · rfl
    rw [hcond] at h
    have hlen := congrArg String.length h
    simp only [Bool.false_eq_true, if_false, String.length_append] at hlen
    have : ("/" : String).length = 1 := rfl
    omega
  · rintro ⟨hf, hne⟩
    simp [hf, hne]

/-- Every file that a run of `utils.DownloadFile` creates or writes is its target, and
the target is created. -/
theorem utils.DownloadFile_files (env : Env) (downloadPath localPath fileName : String)
    (flat : Bool) (details : ArtifactoryDetails) :
    Event.Create (utils.DownloadFile.target localPath fileName flat) ∈
      (utils.DownloadFile env downloadPath localPath fileName flat details).trace ∧
    (utils.DownloadFile env downloadPath localPath fileName flat details).All
      (fun e => ∀ path, e.filePath = some path →
        path = utils.DownloadFile.target localPath fileName flat) := by
  constructor
  · simp only [utils.DownloadFile, Run.bind_eq, Run.andThen, Run.emit, Run.pure_eq, Run.ret]
    cases (!flat && localPath != "") <;> simp
  · unfold utils.DownloadFile
    refine Run.All.bind (Run.All.emit (fun _ h => by cases h)) (fun _ => ?_)
    refine Run.All.bind ?_ (fun _ => ?_)
    · split
      · exact Run.All.emit (fun _ h => by cases h)
      · exact Run.All.pure _
    refine Run.All.bind (Run.All.emit (fun _ h => by cases h; rfl)) (fun _ => ?_)
    refine Run.All.bind (Run.All.lift _) (fun _ => ?_)
    refine Run.All.bind (utils.SendGet_all
      (P := fun e => ∀ path, e.filePath = some path →
        path = utils.DownloadFile.target localPath fileName flat)
      (fun _ _ h => by cases h) _ _ _ _) (fun rb => ?_)
    exact Run.All.bind (Run.All.emit (fun _ h => by cases h; rfl)) (fun _ => Run.All.pure _)

/-- C11, where it holds: with the flat flag off and a non-empty local path, a run of
`downloadFile` that takes the whole-file branch creates the very path it checked,
localPath + "/" + localFileName, and creates or writes no other file. -/
theorem commands.downloadFile_writes_checked_path (env : Env)
    (downloadPath localPath localFileName logMsgPfx : String) (flags : Flags)
    (details : FileDetails)
    (hprobe : env.RemoteFileDetails downloadPath flags.ArtDetails = .ok details)
    (hfetch : commands.shouldDownloadFile env (localPath ++ "/" ++ localFileName) details
      flags.ArtDetails.User flags.ArtDetails.Password = .ok true)
    (hw : commands.downloadFile.whole flags details)
    (hflat : flags.Flat = false) (hne : localPath ≠ "") :
    Event.Create (localPath ++ "/" ++ localFileName) ∈
      (commands.downloadFile env downloadPath localPath localFileName logMsgPfx flags).trace ∧
    (commands.downloadFile env downloadPath localPath localFileName logMsgPfx flags).All
      (fun e => ∀ path, e.filePath = some path → path = localPath ++ "/" ++ localFileName) := by
  have htarget := (utils.DownloadFile.target_eq_checked_iff localPath localFileName
    flags.Flat).mpr ⟨hflat, hne⟩
  obtain ⟨hmem, hall⟩ := utils.DownloadFile_files env downloadPath localPath localFileName
    flags.Flat flags.ArtDetails
  rw [htarget] at hmem hall
  rw [commands.downloadFile_whole_run env downloadPath localPath localFileName logMsgPfx flags
    details hprobe hfetch hw]
  constructor
  · simp only [Run.andThen]
    split
    · exact List.mem_append_right _ hmem
    · exact List.mem_append_right _ (List.mem_append_left _ hmem)
  · refine Run.All.andThen ?_ (fun _ => Run.All.andThen hall
      (fun _ => Run.All.emit (fun _ h => by cases h)))
    intro e he
    simp only [List.mem_singleton] at he
    rw [he]
    intro _ h
    cases h

/-- C11 (the code departs from the claim): `--flat true` is accepted. For the artifact
org/acme/b.zip, (a) when b.zip is in the working directory with the digests of the
server and org/acme/b.zip does not exist, `downloadFile` checks org/acme/b.zip, decides
to fetch, and creates and writes b.zip, the file it did not check; (b) when
org/acme/b.zip exists with the digests of the server and b.zip does not, it decides to
skip, and b.zip is never written. -/
theorem C11_flat_checks_one_path_and_writes_another :
    main.initFlags sampleEnv flatContext "download" = .ok flatFlags ∧
    utils.DownloadFile.target "org/acme" "b.zip" flatFlags.Flat = "b.zip" ∧
    commands.shouldDownloadFile flatEnv "b.zip" sampleRemote "" "" = .ok false ∧
    (commands.downloadFile flatEnv "http://localhost:8081/artifactory/libs/org/acme/b.zip"
      "org/acme" "b.zip" "[Thread 0]" flatFlags).trace =
      [Event.GetFileDetailsFromArtifactory
         "http://localhost:8081/artifactory/libs/org/acme/b.zip" sampleDetails,
       Event.DownloadFile "http://localhost:8081/artifactory/libs/org/acme/b.zip" "org/acme"
         "b.zip" true sampleDetails,
       Event.Create "b.zip",
       Event.ClientDo
         { Method := "GET", Url := "http://localhost:8081/artifactory/libs/org/acme/b.zip",
           Body := none, Close := true,
           Header := [("User-Agent", ["artifactory-cli-go/1.0.0"])] },
       Event.Write "b.zip" "body",
       Event.Println "[Thread 0] Artifactory response: 200 OK"] ∧
    sampleEnvWithLocal.Stat "b.zip" = .notExist ∧
    (commands.downloadFile sampleEnvWithLocal
      "http://localhost:8081/artifactory/libs/org/acme/b.zip" "org/acme" "b.zip" "[Thread 0]"
      flatFlags).trace =
      [Event.GetFileDetailsFromArtifactory
         "http://localhost:8081/artifactory/libs/org/acme/b.zip" sampleDetails,
       Event.Println "[Thread 0] File already exists locally."] := by
  refine ⟨by rfl, by decide, by rfl, by decide, by decide, by decide⟩

end ArtifactoryCli
